import Mathlib

/-!
Verification of the AetherLink control-plane core against its specification.

The Rust sources are shallowly embedded: machine integers (`u32`, `u64`,
`i64`) become `Nat`/`Int` with the saturating operations spelled out,
mutable state becomes explicit state passing, and fallible operations
return `Except`.  Cryptographic primitives supplied by external crates
(libp2p key decoding, signature verification, peer-id derivation,
protobuf encoding) are abstracted as an explicit `CryptoModel`
parameter; everything else follows the source line by line.
-/

namespace Aether

/-! ## Machine-integer helpers -/

def U32_MAX : Nat := 2 ^ 32 - 1

def U64_MAX : Nat := 2 ^ 64 - 1

def I64_MIN : Int := -(2 ^ 63)

def I64_MAX : Int := 2 ^ 63 - 1

/-- Saturating `u32` addition. -/
def satAdd32 (a b : Nat) : Nat := min (a + b) U32_MAX

/-- Saturating `u64` addition. -/
def satAdd64 (a b : Nat) : Nat := min (a + b) U64_MAX

/-- Saturating `u64` multiplication. -/
def satMul64 (a b : Nat) : Nat := min (a * b) U64_MAX

/-- Clamp an integer into the `i64` range. -/
def clampI64 (x : Int) : Int :=
  if x < I64_MIN then I64_MIN else if x > I64_MAX then I64_MAX else x

/-- Saturating `i64` subtraction. -/
def satSubI64 (a b : Int) : Int := clampI64 (a - b)

theorem clampI64_ge_iff (x c : Int) (hlo : I64_MIN < c) (hhi : c ≤ I64_MAX) :
    c ≤ clampI64 x ↔ c ≤ x := by
  simp only [I64_MIN, I64_MAX] at hlo hhi
  simp only [clampI64, I64_MIN, I64_MAX]
  split
  · omega
  · split
    · omega
    · exact Iff.rfl

theorem satSubI64_ge_iff (a b c : Int) (hlo : I64_MIN < c) (hhi : c ≤ I64_MAX) :
    c ≤ satSubI64 a b ↔ c ≤ a - b :=
  clampI64_ge_iff (a - b) c hlo hhi

/-! ## Association lists

The Rust `HashMap`s are embedded as association lists with map
semantics on lookups. -/

def alFind {K V : Type} [BEq K] : List (K × V) → K → Option V
  | [], _ => none
  | p :: rest, k => if p.1 == k then some p.2 else alFind rest k

/-- Write through `HashMap::get_mut` for a key known to be present:
replace the bound value. -/
def alReplace {K V : Type} [BEq K] (l : List (K × V)) (k : K) (v : V) : List (K × V) :=
  l.map (fun p => if p.1 == k then (p.1, v) else p)

/-- `HashMap::insert`: replace the binding if present, append otherwise. -/
def alInsert {K V : Type} [BEq K] (l : List (K × V)) (k : K) (v : V) : List (K × V) :=
  if l.any (fun p => p.1 == k) then alReplace l k v else l ++ [(k, v)]

/-- `HashMap::remove`. -/
def alRemove {K V : Type} [BEq K] (l : List (K × V)) (k : K) : List (K × V) :=
  l.filter (fun p => p.1 != k)

/-! ## Connection state machine (src/crates/aetherlink-core/src/lib.rs) -/

structure TimingProfile where
  discovery_timeout_ms : Nat
  direct_dial_budget_ms : Nat
  punch_budget_ms : Nat
  relay_dial_timeout_ms : Nat
  handshake_timeout_ms : Nat
  ping_interval_ms : Nat
  path_lost_threshold : Nat
  reconnect_budget_ms : Nat
  reconnect_backoff_start_ms : Nat
  reconnect_backoff_max_ms : Nat
deriving DecidableEq, Repr

def TimingProfile.default : TimingProfile where
  discovery_timeout_ms := 2500
  direct_dial_budget_ms := 1500
  punch_budget_ms := 2200
  relay_dial_timeout_ms := 2500
  handshake_timeout_ms := 1200
  ping_interval_ms := 1000
  path_lost_threshold := 3
  reconnect_budget_ms := 15000
  reconnect_backoff_start_ms := 200
  reconnect_backoff_max_ms := 2000

inductive FailureReason where
  | DiscoveryTimeout
  | RelayTimeout
  | AuthFailed
  | VersionMismatch
  | RetryBudgetExhausted
  | UserAbort
deriving DecidableEq, Repr

inductive ConnectionState where
  | Idle
  | Discovering
  | DialingDirect
  | HolePunching
  | RelayDialing
  | SecureHandshake
  | Active
  | Reconnecting
  | Failed (reason : FailureReason)
  | Closed
deriving DecidableEq, Repr

inductive Trigger where
  | StartConnect
  | CandidatesFound
  | DiscoveryTimeout
  | DirectConnected
  | DirectNoSuccess
  | PunchConnected
  | PunchTimeout
  | RelayConnected
  | RelayTimeout
  | HandshakeOk
  | AuthFailed
  | VersionMismatch
  | PathLost
  | RetryBudgetAvailable
  | RetryBudgetExhausted
  | UserRetry
  | UserHangup
deriving DecidableEq, Repr

inductive TimerKind where
  | Discovery
  | DirectDial
  | HolePunch
  | RelayDial
  | Handshake
  | ReconnectBackoff
deriving DecidableEq, Repr

structure Transition where
  src : ConnectionState
  dst : ConnectionState
  arm_timer : Option (TimerKind × Nat)
deriving DecidableEq, Repr

inductive StateMachineError where
  | InvalidTransition (from_ : ConnectionState) (trigger : Trigger)
deriving DecidableEq, Repr

structure ConnectionStateMachine where
  state : ConnectionState
  timing : TimingProfile
  reconnect_elapsed_ms : Nat
  reconnect_attempts : Nat
deriving DecidableEq, Repr

namespace ConnectionStateMachine

def default : ConnectionStateMachine where
  state := .Idle
  timing := TimingProfile.default
  reconnect_elapsed_ms := 0
  reconnect_attempts := 0

def new (timing : TimingProfile) : ConnectionStateMachine :=
  { default with timing := timing }

def register_backoff_wait (m : ConnectionStateMachine) (backoff_ms : Nat) :
    ConnectionStateMachine :=
  { m with
      reconnect_attempts := satAdd32 m.reconnect_attempts 1
      reconnect_elapsed_ms := satAdd64 m.reconnect_elapsed_ms backoff_ms }

def has_reconnect_budget (m : ConnectionStateMachine) : Bool :=
  m.reconnect_elapsed_ms < m.timing.reconnect_budget_ms

def next_backoff_ms (m : ConnectionStateMachine) : Nat :=
  let shift := min m.reconnect_attempts 31
  let base := satMul64 m.timing.reconnect_backoff_start_ms (2 ^ shift)
  min base m.timing.reconnect_backoff_max_ms

/-- One successful step: record the transition and move to the target state. -/
def step (m : ConnectionStateMachine) (src dst : ConnectionState)
    (timer : Option (TimerKind × Nat)) :
    Except StateMachineError Transition × ConnectionStateMachine :=
  (.ok ⟨src, dst, timer⟩, { m with state := dst })

/-- Shallow embedding of `ConnectionStateMachine::apply`.  Mirrors the Rust
`match` arm by arm; the or-pattern guard on the two `Reconnecting` retry
arms applies to both alternatives, exactly as in Rust. -/
def apply (m : ConnectionStateMachine) (trigger : Trigger) :
    Except StateMachineError Transition × ConnectionStateMachine :=
  let src := m.state
  match m.state, trigger with
  | .Idle, .StartConnect =>
      step m src .Discovering (some (.Discovery, m.timing.discovery_timeout_ms))
  | .Discovering, .CandidatesFound =>
      step m src .DialingDirect (some (.DirectDial, m.timing.direct_dial_budget_ms))
  | .Discovering, .DiscoveryTimeout =>
      step m src (.Failed .DiscoveryTimeout) none
  | .DialingDirect, .DirectConnected =>
      step m src .SecureHandshake (some (.Handshake, m.timing.handshake_timeout_ms))
  | .DialingDirect, .DirectNoSuccess =>
      step m src .HolePunching (some (.HolePunch, m.timing.punch_budget_ms))
  | .HolePunching, .PunchConnected =>
      step m src .SecureHandshake (some (.Handshake, m.timing.handshake_timeout_ms))
  | .HolePunching, .PunchTimeout =>
      step m src .RelayDialing (some (.RelayDial, m.timing.relay_dial_timeout_ms))
  | .RelayDialing, .RelayConnected =>
      step m src .SecureHandshake (some (.Handshake, m.timing.handshake_timeout_ms))
  | .RelayDialing, .RelayTimeout =>
      step m src (.Failed .RelayTimeout) none
  | .SecureHandshake, .HandshakeOk =>
      let m := { m with reconnect_attempts := 0, reconnect_elapsed_ms := 0 }
      step m src .Active none
  | .SecureHandshake, .AuthFailed =>
      step m src (.Failed .AuthFailed) none
  | .SecureHandshake, .VersionMismatch =>
      step m src (.Failed .VersionMismatch) none
  | .Active, .PathLost =>
      let wait := m.next_backoff_ms
      let m := m.register_backoff_wait wait
      step m src .Reconnecting (some (.ReconnectBackoff, wait))
  | .Reconnecting, .RetryBudgetAvailable =>
      if m.has_reconnect_budget then
        step m src .DialingDirect (some (.DirectDial, m.timing.direct_dial_budget_ms))
      else
        step m src (.Failed .RetryBudgetExhausted) none
  | .Reconnecting, .RetryBudgetExhausted =>
      if !m.has_reconnect_budget then
        step m src (.Failed .RetryBudgetExhausted) none
      else
        (.error (.InvalidTransition src trigger), m)
  | .Failed _, .UserRetry =>
      step m src .Idle none
  | .Active, .UserHangup =>
      step m src .Closed none
  | .Reconnecting, .UserHangup =>
      step m src .Closed none
  | .SecureHandshake, .UserHangup =>
      step m src .Closed none
  | .DialingDirect, .UserHangup =>
      step m src .Closed none
  | .HolePunching, .UserHangup =>
      step m src .Closed none
  | .RelayDialing, .UserHangup =>
      step m src .Closed none
  | .Discovering, .UserHangup =>
      step m src .Closed none
  | _, _ =>
      (.error (.InvalidTransition src trigger), m)

end ConnectionStateMachine

/-- Transition table of spec section 4.5, written from the spec's words.
A cell is `none` when blank (invalid transition).  The `hasBudget` input
resolves the conditional `Reconnecting x RetryBudgetAvailable` cell; the
`backoff` input is the reconnect backoff the budget paragraph prescribes
for the `ReconnectBackoff` timer. -/
def specTableCell (timing : TimingProfile) (hasBudget : Bool) (backoff : Nat)
    (s : ConnectionState) (t : Trigger) :
    Option (ConnectionState × Option (TimerKind × Nat)) :=
  match s, t with
  | .Idle, .StartConnect =>
      some (.Discovering, some (.Discovery, timing.discovery_timeout_ms))
  | .Discovering, .CandidatesFound =>
      some (.DialingDirect, some (.DirectDial, timing.direct_dial_budget_ms))
  | .Discovering, .DiscoveryTimeout => some (.Failed .DiscoveryTimeout, none)
  | .Discovering, .UserHangup => some (.Closed, none)
  | .DialingDirect, .DirectConnected =>
      some (.SecureHandshake, some (.Handshake, timing.handshake_timeout_ms))
  | .DialingDirect, .DirectNoSuccess =>
      some (.HolePunching, some (.HolePunch, timing.punch_budget_ms))
  | .DialingDirect, .UserHangup => some (.Closed, none)
  | .HolePunching, .PunchConnected =>
      some (.SecureHandshake, some (.Handshake, timing.handshake_timeout_ms))
  | .HolePunching, .PunchTimeout =>
      some (.RelayDialing, some (.RelayDial, timing.relay_dial_timeout_ms))
  | .HolePunching, .UserHangup => some (.Closed, none)
  | .RelayDialing, .RelayConnected =>
      some (.SecureHandshake, some (.Handshake, timing.handshake_timeout_ms))
  | .RelayDialing, .RelayTimeout => some (.Failed .RelayTimeout, none)
  | .RelayDialing, .UserHangup => some (.Closed, none)
  | .SecureHandshake, .HandshakeOk => some (.Active, none)
  | .SecureHandshake, .AuthFailed => some (.Failed .AuthFailed, none)
  | .SecureHandshake, .VersionMismatch => some (.Failed .VersionMismatch, none)
  | .SecureHandshake, .UserHangup => some (.Closed, none)
  | .Active, .PathLost =>
      some (.Reconnecting, some (.ReconnectBackoff, backoff))
  | .Active, .UserHangup => some (.Closed, none)
  | .Reconnecting, .RetryBudgetAvailable =>
      if hasBudget then
        some (.DialingDirect, some (.DirectDial, timing.direct_dial_budget_ms))
      else
        some (.Failed .RetryBudgetExhausted, none)
  | .Reconnecting, .RetryBudgetExhausted => some (.Failed .RetryBudgetExhausted, none)
  | .Reconnecting, .UserHangup => some (.Closed, none)
  | .Failed _, .UserRetry => some (.Idle, none)
  | _, _ => none

/-! ## Security layer (src/crates/aetherlink-core/src/security.rs) -/

def MIN_NONCE_BYTES : Nat := 12

def DEFAULT_ALLOWED_SKEW_MS : Int := 30000

def DEFAULT_REPLAY_RETENTION_MS : Int := 60000

def LAST_SEEN_PERSIST_INTERVAL_MS : Int := 60000

/-- The source's `device_code.trim().is_empty()` test: a trimmed string
is empty exactly when every character is whitespace. -/
def trim_is_empty (s : String) : Bool := s.data.all Char.isWhitespace

structure TrustedPeerRecord where
  device_code : String
  peer_id : String
  identity_pubkey_hex : String
  first_seen_unix_ms : Int
  last_seen_unix_ms : Int
deriving DecidableEq, Repr

/-- The trust store's `HashMap<String, TrustedPeerRecord>`, embedded as an
association list with map semantics on lookups. -/
abbrev TrustStore := List (String × TrustedPeerRecord)

def hex_nibble_to_char (v : Nat) : Char :=
  if v ≤ 9 then Char.ofNat (48 + v)
  else if v ≤ 15 then Char.ofNat (97 + (v - 10))
  else '0'

/-- Embedding of `encode_hex`: bytes are `Nat`s below 256. -/
def encode_hex (bytes : List Nat) : String :=
  String.mk (bytes.foldr
    (fun b acc => hex_nibble_to_char (b / 16) :: hex_nibble_to_char (b % 16) :: acc) [])

inductive SessionAuthError where
  | MissingSenderIdentity
  | MissingDeviceCode
  | MissingNonce
  | NonceTooShort (min_bytes : Nat)
  | InvalidTargetDeviceCode (expected got : String)
  | TimestampSkew (request_unix_ms now_unix_ms allowed_skew_ms : Int)
  | ReplayDetected
  | InvalidSenderPublicKey
  | InvalidSenderPeerId
  | PeerIdMismatch
  | TransportPeerIdMismatch
  | InvalidSignature
  | SigningFailed
  | UntrustedPeer (device_code : String)
  | TrustedPeerMismatch (device_code : String)
  | TrustStoreCorrupt (detail : String)
deriving DecidableEq, Repr

/-- Embedding of `TrustedPeers::ensure_trusted`.  The `peer_id` argument is
the textual form of the caller's `PeerId` (the source's
`peer_id.to_string()`); the store is threaded explicitly.  Returns
`changed` together with the updated store. -/
def ensure_trusted (ts : TrustStore) (device_code : String) (peer_id : String)
    (identity_pubkey : List Nat) (now_unix_ms : Int) (trust_on_first_use : Bool) :
    Except SessionAuthError (Bool × TrustStore) :=
  let current_peer_id := peer_id
  let current_pubkey_hex := encode_hex identity_pubkey
  match alFind ts device_code with
  | some existing =>
      if existing.peer_id ≠ current_peer_id ∨
          existing.identity_pubkey_hex ≠ current_pubkey_hex then
        .error (.TrustedPeerMismatch device_code)
      else
        let changed :=
          LAST_SEEN_PERSIST_INTERVAL_MS ≤ satSubI64 now_unix_ms existing.last_seen_unix_ms
        if changed then
          .ok (true, alReplace ts device_code { existing with last_seen_unix_ms := now_unix_ms })
        else
          .ok (false, ts)
  | none =>
      if !trust_on_first_use then
        .error (.UntrustedPeer device_code)
      else
        .ok (true, (device_code,
          { device_code := device_code
            peer_id := current_peer_id
            identity_pubkey_hex := current_pubkey_hex
            first_seen_unix_ms := now_unix_ms
            last_seen_unix_ms := now_unix_ms }) :: ts)

structure NonceReplayCache where
  retention_ms : Int
  seen : List (List Nat × Int)
deriving DecidableEq, Repr

namespace NonceReplayCache

def new (retention_ms : Int) : NonceReplayCache :=
  { retention_ms := max retention_ms 1, seen := [] }

def default : NonceReplayCache := new DEFAULT_REPLAY_RETENTION_MS

def findNonce (c : NonceReplayCache) (nonce : List Nat) : Option Int :=
  alFind c.seen nonce

/-- Embedding of `evict_expired`: keep future-dated entries, drop entries
older than the retention window. -/
def evict_expired (c : NonceReplayCache) (now_unix_ms : Int) : NonceReplayCache :=
  { c with
      seen := c.seen.filter (fun p =>
        if now_unix_ms < p.2 then true else now_unix_ms - p.2 ≤ c.retention_ms) }

/-- Embedding of `check_and_store`: evict, reject if present, else record.
The updated cache is returned in both outcomes (the Rust method mutates
through `&mut self`). -/
def check_and_store (c : NonceReplayCache) (nonce : List Nat) (now_unix_ms : Int) :
    Except SessionAuthError Unit × NonceReplayCache :=
  let c := c.evict_expired now_unix_ms
  if (c.findNonce nonce).isSome then
    (.error .ReplayDetected, c)
  else
    (.ok (), { c with seen := (nonce, now_unix_ms) :: c.seen })

end NonceReplayCache

/-- A sequence of further `check_and_store` calls (arbitrary nonces and
times), keeping only the cache state: used to express that replay
protection survives unrelated traffic. -/
def runCalls (c : NonceReplayCache) (ops : List (List Nat × Int)) : NonceReplayCache :=
  ops.foldl (fun c p => (c.check_and_store p.1 p.2).2) c

/-! ## Handshake messages and `verify_session_request` -/

structure DeviceIdentity where
  peer_id : List Nat
  identity_pubkey : List Nat
  device_code : String
deriving DecidableEq, Repr

structure ProtocolVersion where
  major : Nat
  minor : Nat
  patch : Nat
deriving DecidableEq, Repr

structure SessionRequest where
  session_id : String
  from_ : Option DeviceIdentity
  requested_role : Nat
  target_device_code : String
  supported_video_codecs : List Nat
  allow_relay : Bool
  preferred_max_fps : Nat
  preferred_max_width : Nat
  preferred_max_height : Nat
  nonce : List Nat
  unix_ms : Int
  signature : List Nat
  version : Option ProtocolVersion
deriving DecidableEq, Repr

structure VerifiedSessionPeer where
  peer_id : Nat
  device_code : String
  trust_store_changed : Bool
deriving DecidableEq, Repr

/-- External cryptographic primitives used by the security layer (libp2p
key decoding and signature verification, peer-id derivation, protobuf
canonical encoding).  They live in external crates, so they are kept
abstract: every theorem below holds for an arbitrary model.  Public keys
and peer ids are abstract handles represented as `Nat`. -/
structure CryptoModel where
  try_decode_protobuf : List Nat → Option Nat
  verify : Nat → List Nat → List Nat → Bool
  peer_id_from_bytes : List Nat → Option Nat
  peer_id_from_public_key : Nat → Nat
  peer_id_to_string : Nat → String
  encode_to_vec : SessionRequest → List Nat

/-- Embedding of `canonical_session_request_payload`: clear the signature,
then serialize. -/
def canonical_session_request_payload (cm : CryptoModel) (request : SessionRequest) :
    List Nat :=
  cm.encode_to_vec { request with signature := [] }

/-- Embedding of `verify_session_request`.  Checks run in source order;
the replay cache and trust store are threaded explicitly and their
mutations survive later failures, exactly as the `&mut` borrows do in
the source. -/
def verify_session_request (cm : CryptoModel) (request : SessionRequest)
    (transport_peer_id : Option Nat) (expected_target_device_code : Option String)
    (now_unix_ms allowed_skew_ms : Int) (replay_cache : NonceReplayCache)
    (trusted_peers : TrustStore) (trust_on_first_use : Bool) :
    Except SessionAuthError VerifiedSessionPeer × NonceReplayCache × TrustStore :=
  match request.from_ with
  | none => (.error .MissingSenderIdentity, replay_cache, trusted_peers)
  | some sender =>
    if trim_is_empty sender.device_code then
      (.error .MissingDeviceCode, replay_cache, trusted_peers)
    else if expected_target_device_code.any
        (fun expected => request.target_device_code != expected) then
      (.error (.InvalidTargetDeviceCode
          (expected_target_device_code.getD "") request.target_device_code),
        replay_cache, trusted_peers)
    else if request.nonce.isEmpty then
      (.error .MissingNonce, replay_cache, trusted_peers)
    else if request.nonce.length < MIN_NONCE_BYTES then
      (.error (.NonceTooShort MIN_NONCE_BYTES), replay_cache, trusted_peers)
    else if allowed_skew_ms < |now_unix_ms - request.unix_ms| then
      (.error (.TimestampSkew request.unix_ms now_unix_ms allowed_skew_ms),
        replay_cache, trusted_peers)
    else
      match replay_cache.check_and_store request.nonce now_unix_ms with
      | (.error e, cache1) => (.error e, cache1, trusted_peers)
      | (.ok _, cache1) =>
        match cm.try_decode_protobuf sender.identity_pubkey with
        | none => (.error .InvalidSenderPublicKey, cache1, trusted_peers)
        | some sender_public_key =>
          let signing_payload := canonical_session_request_payload cm request
          if !cm.verify sender_public_key signing_payload request.signature then
            (.error .InvalidSignature, cache1, trusted_peers)
          else
            match cm.peer_id_from_bytes sender.peer_id with
            | none => (.error .InvalidSenderPeerId, cache1, trusted_peers)
            | some claimed_peer_id =>
              let derived_peer_id := cm.peer_id_from_public_key sender_public_key
              if claimed_peer_id ≠ derived_peer_id then
                (.error .PeerIdMismatch, cache1, trusted_peers)
              else if transport_peer_id.any (fun bound => bound != derived_peer_id) then
                (.error .TransportPeerIdMismatch, cache1, trusted_peers)
              else
                match ensure_trusted trusted_peers sender.device_code
                    (cm.peer_id_to_string derived_peer_id) sender.identity_pubkey
                    now_unix_ms trust_on_first_use with
                | .error e => (.error e, cache1, trusted_peers)
                | .ok (trust_store_changed, trusted1) =>
                    (.ok { peer_id := derived_peer_id
                           device_code := sender.device_code
                           trust_store_changed := trust_store_changed },
                      cache1, trusted1)

/-- The error kinds a `verify_session_request` run can produce only
after the replay-cache step has stored the nonce (public-key decoding,
signature, peer-id consistency, transport binding, trust-store). -/
def is_post_replay_failure : SessionAuthError → Bool
  | .InvalidSenderPublicKey => true
  | .InvalidSignature => true
  | .InvalidSenderPeerId => true
  | .PeerIdMismatch => true
  | .TransportPeerIdMismatch => true
  | .UntrustedPeer _ => true
  | .TrustedPeerMismatch _ => true
  | _ => false

/-! ## Control session engine (src/apps/aetherlink-node/src/main.rs)

Peers are abstract transport identifiers represented as `Nat`; the
per-peer tables are association lists with map semantics. -/

structure PendingOutboundSession where
  session_id : String
  request_nonces : List (List Nat)
  last_send_unix_ms : Int
  attempts : Nat
deriving DecidableEq, Repr

structure ControlKeepaliveState where
  next_seq : Nat
  last_send_unix_ms : Int
  awaiting_seq : Option Nat
  awaiting_since_unix_ms : Option Int
  consecutive_misses : Nat
deriving DecidableEq, Repr

def ControlKeepaliveState.default : ControlKeepaliveState where
  next_seq := 0
  last_send_unix_ms := 0
  awaiting_seq := none
  awaiting_since_unix_ms := none
  consecutive_misses := 0

/-- Embedding of the loop body of `App::collect_keepalive_actions`.
Iterates the active-session snapshot in order, skipping peers that are
no longer connected; the keepalive map is threaded through because later
iterations observe earlier `entry` updates. -/
def collect_keepalive_go (interval_ms timeout_ms : Int) (max_misses : Nat)
    (now_unix_ms : Int) (connected_peers : List Nat)
    (ck : List (Nat × ControlKeepaliveState)) :
    List (Nat × String) →
    List (Nat × String × Nat) × List Nat × List (Nat × ControlKeepaliveState)
  | [] => ([], [], ck)
  | (peer_id, session_id) :: rest =>
    if !connected_peers.contains peer_id then
      collect_keepalive_go interval_ms timeout_ms max_misses now_unix_ms
        connected_peers ck rest
    else
      let state := (alFind ck peer_id).getD ControlKeepaliveState.default
      let (state, lost_here, proceed) :=
        match state.awaiting_since_unix_ms with
        | some awaiting_since =>
          if timeout_ms ≤ satSubI64 now_unix_ms awaiting_since then
            let state := { state with
              awaiting_since_unix_ms := none
              awaiting_seq := none
              consecutive_misses := satAdd32 state.consecutive_misses 1 }
            (state, decide (max_misses ≤ state.consecutive_misses), true)
          else
            (state, false, false)
        | none => (state, false, true)
      let (state, send_here) :=
        if !proceed then (state, none)
        else if satSubI64 now_unix_ms state.last_send_unix_ms < interval_ms then
          (state, none)
        else
          let seq := satAdd64 state.next_seq 1
          ({ state with
              next_seq := seq
              last_send_unix_ms := now_unix_ms
              awaiting_seq := some seq
              awaiting_since_unix_ms := some now_unix_ms }, some seq)
      let ck := alInsert ck peer_id state
      let (sends, losts, ck') :=
        collect_keepalive_go interval_ms timeout_ms max_misses now_unix_ms
          connected_peers ck rest
      ((match send_here with
        | some seq => (peer_id, session_id, seq) :: sends
        | none => sends),
       (if lost_here then peer_id :: losts else losts),
       ck')

/-- Embedding of `App::collect_keepalive_actions`: returns the Ping send
actions, the peers whose keepalive loss reached the miss threshold, and
the updated keepalive table. -/
def collect_keepalive_actions (interval_ms timeout_ms : Int) (max_misses : Nat)
    (now_unix_ms : Int) (connected_peers : List Nat)
    (ck : List (Nat × ControlKeepaliveState)) (active : List (Nat × String)) :
    List (Nat × String × Nat) × List Nat × List (Nat × ControlKeepaliveState) :=
  collect_keepalive_go interval_ms timeout_ms max_misses now_unix_ms
    connected_peers ck active

/-- Per-session keepalive tick behaviour as the amended claim states it:
when a ping is awaited and has timed out, clear the awaiting state,
increment the miss counter and flag loss at the threshold, then fall
through to the send check in the same tick; the send check is skipped
only while a ping is awaited and not yet timed out; it sends (and arms
awaiting) when `now - last_send >= interval`.  Returns the new state, a
lost flag and the sent sequence number, if any. -/
def keepalive_spec_step (interval_ms timeout_ms : Int) (max_misses : Nat)
    (now_unix_ms : Int) (st : ControlKeepaliveState) :
    ControlKeepaliveState × Bool × Option Nat :=
  match st.awaiting_since_unix_ms with
  | some awaiting_since =>
    if timeout_ms ≤ satSubI64 now_unix_ms awaiting_since then
      let st1 : ControlKeepaliveState :=
        { st with
            awaiting_since_unix_ms := none
            awaiting_seq := none
            consecutive_misses := satAdd32 st.consecutive_misses 1 }
      let lost := decide (max_misses ≤ st1.consecutive_misses)
      if satSubI64 now_unix_ms st1.last_send_unix_ms < interval_ms then
        (st1, lost, none)
      else
        let seq := satAdd64 st1.next_seq 1
        ({ st1 with
            next_seq := seq
            last_send_unix_ms := now_unix_ms
            awaiting_seq := some seq
            awaiting_since_unix_ms := some now_unix_ms }, lost, some seq)
    else (st, false, none)
  | none =>
    if satSubI64 now_unix_ms st.last_send_unix_ms < interval_ms then
      (st, false, none)
    else
      let seq := satAdd64 st.next_seq 1
      ({ st with
          next_seq := seq
          last_send_unix_ms := now_unix_ms
          awaiting_seq := some seq
          awaiting_since_unix_ms := some now_unix_ms }, false, some seq)

/-! ## SessionAccept handling (`handle_control_response`) -/

structure SessionAccept where
  session_id : String
  selected_codec : Nat
  selected_fps : Nat
  selected_width : Nat
  selected_height : Nat
  using_relay : Bool
  nonce : List Nat
  unix_ms : Int
  signature : List Nat
  request_nonce : List Nat
deriving DecidableEq, Repr

/-- The slice of `App` state that the SessionAccept path of
`handle_control_response` reads and writes. -/
structure AppState where
  sessions : List (Nat × ConnectionStateMachine)
  pending_outbound_sessions : List (Nat × PendingOutboundSession)
  active_sessions : List (Nat × String)
  control_keepalive : List (Nat × ControlKeepaliveState)
  nonce_cache : NonceReplayCache
  trusted_peers : TrustStore
  trust_on_first_use : Bool
deriving DecidableEq, Repr

/-- Embedding of `App::set_active_session`. -/
def set_active_session (app : AppState) (peer_id : Nat) (session_id : String) :
    AppState :=
  { app with
      active_sessions := alInsert app.active_sessions peer_id session_id
      control_keepalive :=
        match alFind app.control_keepalive peer_id with
        | some _ => app.control_keepalive
        | none => alInsert app.control_keepalive peer_id ControlKeepaliveState.default }

/-- Embedding of `App::on_accept`: record the active session and drive
the state machine with `HandshakeOk`, ignoring an invalid-transition
error. -/
def on_accept (app : AppState) (peer_id : Nat) (session_id : String) : AppState :=
  let app := set_active_session app peer_id session_id
  match alFind app.sessions peer_id with
  | some sm => { app with sessions := alInsert app.sessions peer_id (sm.apply .HandshakeOk).2 }
  | none => app

/-- Embedding of `App::on_auth_failed`: drive the state machine with
`AuthFailed`, ignoring an invalid-transition error. -/
def on_auth_failed (app : AppState) (peer_id : Nat) : AppState :=
  match alFind app.sessions peer_id with
  | some sm => { app with sessions := alInsert app.sessions peer_id (sm.apply .AuthFailed).2 }
  | none => app

/-- Which exit the SessionAccept branch took; mirrors the early returns of
the source. -/
inductive AcceptOutcome where
  | accepted
  | droppedNoPending
  | droppedEmptyNonce
  | droppedNonceMismatch
  | droppedVerifyFailed (e : SessionAuthError)
deriving DecidableEq, Repr

/-- Signature of `verify_session_accept` as called by the engine.  Its
definition lives in a core-crate module that is not among the sources, so
it is abstracted: the arguments mirror the call site (`accept`,
transport peer, expected session id, `now`, replay cache, trust store,
TOFU flag) and the result threads the mutated state. -/
abbrev VerifyAcceptFn :=
  SessionAccept → Nat → String → Int → NonceReplayCache → TrustStore → Bool →
    Except SessionAuthError VerifiedSessionPeer × NonceReplayCache × TrustStore

/-- Embedding of the `SessionAccept` arm of `handle_control_response`.
The pending record is removed up front (`HashMap::remove`), the nonce
binding checks run next, then the accept signature is verified; every
failure drives `AuthFailed`.  Trust-store persistence is disk IO and has
no effect on the in-memory state modelled here. -/
def handle_session_accept (verify_accept : VerifyAcceptFn) (app : AppState)
    (peer : Nat) (accept : SessionAccept) (now_unix_ms : Int) :
    AppState × AcceptOutcome :=
  match alFind app.pending_outbound_sessions peer with
  | none => (on_auth_failed app peer, .droppedNoPending)
  | some pending =>
    let app := { app with
      pending_outbound_sessions := alRemove app.pending_outbound_sessions peer }
    if accept.request_nonce.isEmpty then
      (on_auth_failed app peer, .droppedEmptyNonce)
    else if !pending.request_nonces.contains accept.request_nonce then
      (on_auth_failed app peer, .droppedNonceMismatch)
    else
      match verify_accept accept peer pending.session_id now_unix_ms
          app.nonce_cache app.trusted_peers app.trust_on_first_use with
      | (.error e, cache1, trusted1) =>
          (on_auth_failed { app with nonce_cache := cache1, trusted_peers := trusted1 } peer,
            .droppedVerifyFailed e)
      | (.ok _, cache1, trusted1) =>
          (on_accept { app with nonce_cache := cache1, trusted_peers := trusted1 }
            peer accept.session_id, .accepted)

/-! ## Theorems -/

section AssocLemmas

variable {K V : Type} [BEq K] [LawfulBEq K]

theorem alReplace_cons (p : K × V) (rest : List (K × V)) (k : K) (v : V) :
    alReplace (p :: rest) k v =
      (if (p.1 == k) = true then (p.1, v) else p) :: alReplace rest k v := by
  simp [alReplace]

theorem alFind_alReplace_ne (l : List (K × V)) (k k' : K) (v : V) (h : k' ≠ k) :
    alFind (alReplace l k v) k' = alFind l k' := by
  induction l with
  | nil => rfl
  | cons p rest ih =>
    rw [alReplace_cons]
    by_cases hp : (p.1 == k) = true
    · have h2 : (p.1 == k') = false :=
        beq_eq_false_iff_ne.mpr (by rw [eq_of_beq hp]; exact fun hh => h hh.symm)
      simp [alFind, hp, h2, ih]
    · by_cases hp' : (p.1 == k') = true <;>
        simp [alFind, hp, hp', ih]

theorem alFind_alReplace_self (l : List (K × V)) (k : K) (v : V)
    (h : l.any (fun p => p.1 == k) = true) :
    alFind (alReplace l k v) k = some v := by
  induction l with
  | nil => cases h
  | cons p rest ih =>
    rw [alReplace_cons]
    by_cases hp : (p.1 == k) = true
    · simp [alFind, hp]
    · have hrest : rest.any (fun p => p.1 == k) = true := by
        simpa [List.any_cons, hp] using h
      simp [alFind, hp, ih hrest]

theorem alFind_eq_none_of_any_false (l : List (K × V)) (k : K)
    (h : l.any (fun p => p.1 == k) = false) : alFind l k = none := by
  induction l with
  | nil => rfl
  | cons p rest ih =>
    simp only [List.any_cons, Bool.or_eq_false_iff] at h
    simp [alFind, h.1, ih h.2]

theorem alFind_append_single_ne (l : List (K × V)) (k k' : K) (v : V) (h : k' ≠ k) :
    alFind (l ++ [(k, v)]) k' = alFind l k' := by
  induction l with
  | nil =>
    simp [alFind, beq_eq_false_iff_ne.mpr (fun hh => h hh.symm)]
  | cons p rest ih =>
    by_cases hp' : (p.1 == k') = true <;>
      simp [alFind, hp', ih]

theorem alFind_alInsert_self (l : List (K × V)) (k : K) (v : V) :
    alFind (alInsert l k v) k = some v := by
  unfold alInsert
  split
  · exact alFind_alReplace_self l k v (by assumption)
  · rename_i h
    induction l with
    | nil => simp [alFind]
    | cons p rest ih =>
      have hp : (p.1 == k) = false := by
        by_cases hc : (p.1 == k) = true
        · exact absurd (by simp [List.any_cons, hc]) h
        · exact Bool.not_eq_true _ ▸ hc
      have h' : ¬ rest.any (fun p => p.1 == k) = true := by
        intro hh
        exact h (by simp [List.any_cons, hh])
      simp [alFind, hp, ih h']

theorem alFind_alInsert_ne (l : List (K × V)) (k k' : K) (v : V) (h : k' ≠ k) :
    alFind (alInsert l k v) k' = alFind l k' := by
  unfold alInsert
  split
  · exact alFind_alReplace_ne l k k' v h
  · exact alFind_append_single_ne l k k' v h

theorem any_beq_of_alFind_some (l : List (K × V)) (k : K) (v : V)
    (h : alFind l k = some v) : l.any (fun p => p.1 == k) = true := by
  induction l with
  | nil => cases h
  | cons p rest ih =>
    by_cases hp : (p.1 == k) = true
    · simp [List.any_cons, hp]
    · simp only [alFind, hp, if_neg, Bool.false_eq_true, not_false_eq_true] at h
      simp [List.any_cons, hp, ih h]

end AssocLemmas

/-- C3.  `ensure_trusted` pins trust records: with a record present it
demands an exact match of peer id and public key (else
`TrustedPeerMismatch`), advances `last_seen_unix_ms` to `now` iff
`now - last_seen >= 60000` ms and reports `changed` exactly for that
write; with no record it inserts `first_seen = last_seen = now` under
TOFU (`changed = true`) and fails with `UntrustedPeer` otherwise; and
no record in the resulting store ever carries a different peer id,
public key, or first-seen time than it had before. -/
theorem C3_ensure_trusted (ts : TrustStore) (dc pid : String) (pk : List Nat)
    (now : Int) (tofu : Bool) :
    (∀ ex, alFind ts dc = some ex →
      (ex.peer_id ≠ pid ∨ ex.identity_pubkey_hex ≠ encode_hex pk →
        ensure_trusted ts dc pid pk now tofu = .error (.TrustedPeerMismatch dc))) ∧
    (∀ ex, alFind ts dc = some ex → ex.peer_id = pid →
      ex.identity_pubkey_hex = encode_hex pk →
      ((60000 ≤ now - ex.last_seen_unix_ms →
        ensure_trusted ts dc pid pk now tofu =
          .ok (true, alReplace ts dc { ex with last_seen_unix_ms := now })) ∧
       (now - ex.last_seen_unix_ms < 60000 →
        ensure_trusted ts dc pid pk now tofu = .ok (false, ts)))) ∧
    (alFind ts dc = none →
      ((tofu = true →
        ensure_trusted ts dc pid pk now tofu =
          .ok (true, (dc, ⟨dc, pid, encode_hex pk, now, now⟩) :: ts)) ∧
       (tofu = false →
        ensure_trusted ts dc pid pk now tofu = .error (.UntrustedPeer dc)))) ∧
    (∀ changed ts', ensure_trusted ts dc pid pk now tofu = .ok (changed, ts') →
      ∀ dc' r', alFind ts' dc' = some r' →
        (∃ r, alFind ts dc' = some r ∧ r'.peer_id = r.peer_id ∧
          r'.identity_pubkey_hex = r.identity_pubkey_hex ∧
          r'.first_seen_unix_ms = r.first_seen_unix_ms) ∨
        alFind ts dc' = none) := by
  have hsat : ∀ x : Int, (LAST_SEEN_PERSIST_INTERVAL_MS ≤ satSubI64 now x) ↔
      (60000 ≤ now - x) := by
    intro x
    have h := satSubI64_ge_iff now x 60000
      (by norm_num [I64_MIN]) (by norm_num [I64_MAX])
    simpa [LAST_SEEN_PERSIST_INTERVAL_MS] using h
  have h1 : ∀ ex, alFind ts dc = some ex →
      (ex.peer_id ≠ pid ∨ ex.identity_pubkey_hex ≠ encode_hex pk →
        ensure_trusted ts dc pid pk now tofu = .error (.TrustedPeerMismatch dc)) := by
    intro ex hex hmis
    simp only [ensure_trusted, hex]
    rw [if_pos hmis]
  have h2 : ∀ ex, alFind ts dc = some ex → ex.peer_id = pid →
      ex.identity_pubkey_hex = encode_hex pk →
      ((60000 ≤ now - ex.last_seen_unix_ms →
        ensure_trusted ts dc pid pk now tofu =
          .ok (true, alReplace ts dc { ex with last_seen_unix_ms := now })) ∧
       (now - ex.last_seen_unix_ms < 60000 →
        ensure_trusted ts dc pid pk now tofu = .ok (false, ts))) := by
    intro ex hex hp hk
    have hnomis : ¬(ex.peer_id ≠ pid ∨ ex.identity_pubkey_hex ≠ encode_hex pk) := by
      push_neg
      exact ⟨hp, hk⟩
    constructor
    · intro hge
      simp only [ensure_trusted, hex]
      rw [if_neg hnomis, if_pos ((hsat ex.last_seen_unix_ms).mpr hge)]
    · intro hlt
      simp only [ensure_trusted, hex]
      rw [if_neg hnomis, if_neg (by rw [hsat ex.last_seen_unix_ms]; omega)]
  have h3 : alFind ts dc = none →
      ((tofu = true →
        ensure_trusted ts dc pid pk now tofu =
          .ok (true, (dc, ⟨dc, pid, encode_hex pk, now, now⟩) :: ts)) ∧
       (tofu = false →
        ensure_trusted ts dc pid pk now tofu = .error (.UntrustedPeer dc))) := by
    intro hnone
    constructor
    · intro htofu
      simp [ensure_trusted, hnone, htofu]
    · intro htofu
      simp [ensure_trusted, hnone, htofu]
  refine ⟨h1, h2, h3, ?_⟩
  intro changed ts' hok dc' r' hfind'
  cases hex : alFind ts dc with
  | some ex =>
    by_cases hmis : ex.peer_id ≠ pid ∨ ex.identity_pubkey_hex ≠ encode_hex pk
    · rw [h1 ex hex hmis] at hok
      cases hok
    · push_neg at hmis
      obtain ⟨hp, hk⟩ := hmis
      by_cases hge : 60000 ≤ now - ex.last_seen_unix_ms
      · rw [(h2 ex hex hp hk).1 hge] at hok
        simp only [Except.ok.injEq, Prod.mk.injEq] at hok
        obtain ⟨-, hts'⟩ := hok
        subst hts'
        by_cases hdc : dc' = dc
        · subst hdc
          left
          refine ⟨ex, hex, ?_⟩
          have hrepl : alFind (alReplace ts dc' { ex with last_seen_unix_ms := now }) dc' =
              some { ex with last_seen_unix_ms := now } :=
            alFind_alReplace_self ts dc' _ (any_beq_of_alFind_some ts dc' ex hex)
          rw [hrepl] at hfind'
          cases hfind'
          exact ⟨rfl, rfl, rfl⟩
        · rw [alFind_alReplace_ne ts dc dc' _ hdc] at hfind'
          left
          exact ⟨r', hfind', rfl, rfl, rfl⟩
      · rw [(h2 ex hex hp hk).2 (by omega)] at hok
        simp only [Except.ok.injEq, Prod.mk.injEq] at hok
        obtain ⟨-, hts'⟩ := hok
        subst hts'
        left
        exact ⟨r', hfind', rfl, rfl, rfl⟩
  | none =>
    cases htofu : tofu with
    | false =>
      rw [(h3 hex).2 htofu] at hok
      cases hok
    | true =>
      rw [(h3 hex).1 htofu] at hok
      simp only [Except.ok.injEq, Prod.mk.injEq] at hok
      obtain ⟨-, hts'⟩ := hok
      subst hts'
      by_cases hdc : dc' = dc
      · subst hdc
        right
        exact hex
      · have hne : (dc == dc') = false :=
          beq_eq_false_iff_ne.mpr (fun hh => hdc hh.symm)
        simp only [alFind, hne, Bool.false_eq_true, if_neg, not_false_eq_true] at hfind'
        left
        exact ⟨r', hfind', rfl, rfl, rfl⟩

/-- C3, witness: a store pinning device code `d`; a matching observation
60 s later advances `last_seen` and reports `changed = true`; a fresh
device code under TOFU inserts `first_seen = last_seen = now`; with TOFU
off it fails with `UntrustedPeer`. -/
theorem C3_ensure_trusted_witness :
    ensure_trusted [("d", ⟨"d", "p", "aa", 0, 0⟩)] "d" "p" [170] 60000 true =
      .ok (true, [("d", ⟨"d", "p", "aa", 0, 60000⟩)]) ∧
    ensure_trusted [] "e" "q" [170] 7 true =
      .ok (true, [("e", ⟨"e", "q", "aa", 7, 7⟩)]) ∧
    ensure_trusted [] "e" "q" [170] 7 false = .error (.UntrustedPeer "e") := by
  refine ⟨?_, ?_, ?_⟩
  · have h := ((C3_ensure_trusted [("d", ⟨"d", "p", "aa", 0, 0⟩)] "d" "p" [170]
      60000 true).2.1 ⟨"d", "p", "aa", 0, 0⟩ rfl rfl (by decide)).1 (by decide)
    simpa [alReplace] using h
  · have h := ((C3_ensure_trusted [] "e" "q" [170] 7 true).2.2.1 rfl).1 rfl
    simpa using h
  · exact ((C3_ensure_trusted [] "e" "q" [170] 7 false).2.2.1 rfl).2 rfl

section ReplayLemmas

theorem alFind_filter_preserved {K V : Type} [BEq K] [LawfulBEq K]
    (l : List (K × V)) (f : K × V → Bool) (k : K) (v : V)
    (h : alFind l k = some v) (hf : ∀ k', (k' == k) = true → f (k', v) = true) :
    alFind (l.filter f) k = some v := by
  induction l with
  | nil => cases h
  | cons p rest ih =>
    by_cases hp : (p.1 == k) = true
    · have hv : p.2 = v := by
        simpa [alFind, hp] using h
      have hfp : f p = true := by
        have := hf p.1 hp
        rwa [← hv, Prod.mk.eta] at this
      simp [List.filter_cons, hfp, alFind, hp, hv]
    · have h' : alFind rest k = some v := by
        simpa [alFind, hp] using h
      cases hfp : f p <;> simp [List.filter_cons, hfp, alFind, hp, ih h']

theorem evict_preserves (c : NonceReplayCache) (n : List Nat) (t u : Int)
    (hfind : c.findNonce n = some t) (hcond : u - t ≤ c.retention_ms) :
    (c.evict_expired u).findNonce n = some t := by
  unfold NonceReplayCache.evict_expired NonceReplayCache.findNonce
  unfold NonceReplayCache.findNonce at hfind
  apply alFind_filter_preserved _ _ _ _ hfind
  intro k' _
  by_cases hu : u < t
  · simp [hu]
  · simp [hu, hcond]

theorem check_and_store_preserves (c : NonceReplayCache) (n m : List Nat) (t u : Int)
    (hfind : c.findNonce n = some t) (hcond : u - t ≤ c.retention_ms) :
    ((c.check_and_store m u).2).findNonce n = some t ∧
    ((c.check_and_store m u).2).retention_ms = c.retention_ms := by
  unfold NonceReplayCache.check_and_store
  have h1 : (c.evict_expired u).findNonce n = some t := evict_preserves c n t u hfind hcond
  by_cases hm : ((c.evict_expired u).findNonce m).isSome = true
  · simp only [hm, if_pos]
    exact ⟨h1, rfl⟩
  · simp only [hm, Bool.false_eq_true, if_neg, not_false_eq_true]
    refine ⟨?_, rfl⟩
    have hmn : (m == n) = false := by
      by_cases hc : (m == n) = true
      · exact absurd (by rw [← eq_of_beq hc] at h1; simp [h1]) hm
      · exact Bool.not_eq_true _ ▸ hc
    simpa [NonceReplayCache.findNonce, alFind, hmn] using h1

theorem runCalls_preserves (ops : List (List Nat × Int)) (c : NonceReplayCache)
    (n : List Nat) (t : Int) (hfind : c.findNonce n = some t)
    (hops : ∀ p ∈ ops, p.2 - t ≤ c.retention_ms) :
    (runCalls c ops).findNonce n = some t ∧
    (runCalls c ops).retention_ms = c.retention_ms := by
  induction ops generalizing c with
  | nil => exact ⟨hfind, rfl⟩
  | cons p rest ih =>
    have hstep := check_and_store_preserves c n p.1 t p.2 hfind
      (hops p (List.mem_cons_self p rest))
    have hrest := ih ((c.check_and_store p.1 p.2).2) hstep.1
      (fun q hq => hstep.2 ▸ hops q (List.mem_cons_of_mem p hq))
    exact ⟨hrest.1, hrest.2.trans hstep.2⟩

theorem check_and_store_rejects (c : NonceReplayCache) (n : List Nat) (u t : Int)
    (h : (c.evict_expired u).findNonce n = some t) :
    (c.check_and_store n u).1 = .error .ReplayDetected := by
  unfold NonceReplayCache.check_and_store
  simp [h]

end ReplayLemmas

/-- C7.  On a cache whose post-eviction state does not contain `n`,
`check_and_store(n, t)` succeeds: it first evicts exactly the entries
whose age `t - seen` exceeds retention (future-dated entries are kept by
the filter), then records `(n, t)`.  Afterwards, any later
`check_and_store(n, t')` with `t' - t <= retention` fails with
`ReplayDetected`, even across an arbitrary interleaving of other calls
whose times stay within retention of `t`. -/
theorem C7_check_and_store (c : NonceReplayCache) (n : List Nat) (t t' : Int)
    (ops : List (List Nat × Int))
    (hfresh : (c.evict_expired t).findNonce n = none)
    (hops : ∀ p ∈ ops, p.2 - t ≤ c.retention_ms)
    (hwin : t' - t ≤ c.retention_ms) :
    c.check_and_store n t =
      (.ok (), { c with seen := (n, t) :: (c.evict_expired t).seen }) ∧
    ((runCalls (c.check_and_store n t).2 ops).check_and_store n t').1 =
      .error .ReplayDetected := by
  have hok : c.check_and_store n t =
      (.ok (), { c with seen := (n, t) :: (c.evict_expired t).seen }) := by
    unfold NonceReplayCache.check_and_store
    simp only [hfresh, Option.isSome_none, Bool.false_eq_true, if_neg, not_false_eq_true]
    rfl
  refine ⟨hok, ?_⟩
  have hstored : ((c.check_and_store n t).2).findNonce n = some t := by
    rw [hok]
    simp [NonceReplayCache.findNonce, alFind]
  have hret : ((c.check_and_store n t).2).retention_ms = c.retention_ms := by
    rw [hok]
  have hrun := runCalls_preserves ops ((c.check_and_store n t).2) n t hstored
    (fun p hp => hret ▸ hops p hp)
  have hfinal := evict_preserves (runCalls (c.check_and_store n t).2 ops) n t t'
    hrun.1 (by rw [hrun.2, hret]; exact hwin)
  exact check_and_store_rejects _ n t' t hfinal

/-- C7, witness: a fresh cache accepts nonce `[1, 2]` at time 0; after an
unrelated nonce is processed at time 5, replaying `[1, 2]` at time 10 is
rejected. -/
theorem C7_check_and_store_witness :
    (NonceReplayCache.new 60000).check_and_store [1, 2] 0 =
      (.ok (), { retention_ms := 60000, seen := [([1, 2], 0)] }) ∧
    ((runCalls ((NonceReplayCache.new 60000).check_and_store [1, 2] 0).2
        [([3], 5)]).check_and_store [1, 2] 10).1 = .error .ReplayDetected := by
  have h := C7_check_and_store (NonceReplayCache.new 60000) [1, 2] 0 10 [([3], 5)]
    rfl (by decide) (by decide)
  exact ⟨by rw [h.1]; rfl, h.2⟩

section VerifyLemmas

theorem check_and_store_error_kind (c : NonceReplayCache) (n : List Nat) (t : Int)
    (e : SessionAuthError) (h : (c.check_and_store n t).1 = .error e) :
    e = .ReplayDetected := by
  unfold NonceReplayCache.check_and_store at h
  by_cases hc : ((c.evict_expired t).findNonce n).isSome = true
  · rw [if_pos hc] at h
    cases h
    rfl
  · rw [if_neg hc] at h
    cases h

theorem ensure_trusted_error_kind (ts : TrustStore) (dc pid : String) (pk : List Nat)
    (now : Int) (tofu : Bool) (e : SessionAuthError)
    (h : ensure_trusted ts dc pid pk now tofu = .error e) :
    e = .TrustedPeerMismatch dc ∨ e = .UntrustedPeer dc := by
  cases hex : alFind ts dc with
  | some ex =>
    simp only [ensure_trusted, hex] at h
    by_cases hmis : ex.peer_id ≠ pid ∨ ex.identity_pubkey_hex ≠ encode_hex pk
    · rw [if_pos hmis] at h
      cases h
      exact Or.inl rfl
    · rw [if_neg hmis] at h
      by_cases hch : LAST_SEEN_PERSIST_INTERVAL_MS ≤ satSubI64 now ex.last_seen_unix_ms
      · rw [if_pos hch] at h
        cases h
      · rw [if_neg hch] at h
        cases h
  | none =>
    simp only [ensure_trusted, hex] at h
    by_cases htofu : (!tofu) = true
    · rw [if_pos htofu] at h
      cases h
      exact Or.inr rfl
    · rw [if_neg htofu] at h
      cases h

theorem check_and_store_ok_stores (c : NonceReplayCache) (n : List Nat) (t : Int)
    (u : Unit) (h : (c.check_and_store n t).1 = .ok u) :
    ((c.check_and_store n t).2).findNonce n = some t := by
  unfold NonceReplayCache.check_and_store at h ⊢
  by_cases hc : ((c.evict_expired t).findNonce n).isSome = true
  · rw [if_pos hc] at h
    cases h
  · rw [if_neg hc] at h ⊢
    simp [NonceReplayCache.findNonce, alFind]

/-- Behaviour of `verify_session_request` once the sender, device-code,
target, nonce and skew checks have passed: the returned replay cache is
exactly the cache `check_and_store` produced (whatever happens later), a
replay rejection propagates, a success or post-replay failure implies
the replay step succeeded, and any error is one of the late kinds. -/
theorem verify_past_skew (cm : CryptoModel) (rq : SessionRequest) (tp : Option Nat)
    (et : Option String) (now skew : Int) (rc : NonceReplayCache) (ts : TrustStore)
    (tofu : Bool) (sender : DeviceIdentity)
    (hfrom : rq.from_ = some sender)
    (hdc : trim_is_empty sender.device_code = false)
    (htgt : (et.any fun x => rq.target_device_code != x) = false)
    (hne : rq.nonce.isEmpty = false)
    (hlen : ¬ rq.nonce.length < MIN_NONCE_BYTES)
    (hskew : ¬ skew < |now - rq.unix_ms|) :
    (verify_session_request cm rq tp et now skew rc ts tofu).2.1 =
      (rc.check_and_store rq.nonce now).2 ∧
    ((rc.check_and_store rq.nonce now).1 = .error .ReplayDetected →
      (verify_session_request cm rq tp et now skew rc ts tofu).1 =
        .error .ReplayDetected) ∧
    (∀ v, (verify_session_request cm rq tp et now skew rc ts tofu).1 = .ok v →
      (rc.check_and_store rq.nonce now).1 = .ok ()) ∧
    (∀ e, (verify_session_request cm rq tp et now skew rc ts tofu).1 = .error e →
      is_post_replay_failure e = true →
      (rc.check_and_store rq.nonce now).1 = .ok ()) ∧
    (∀ e, (verify_session_request cm rq tp et now skew rc ts tofu).1 = .error e →
      e = .ReplayDetected ∨ e = .InvalidSenderPublicKey ∨ e = .InvalidSignature ∨
      e = .InvalidSenderPeerId ∨ e = .PeerIdMismatch ∨ e = .TransportPeerIdMismatch ∨
      e = .TrustedPeerMismatch sender.device_code ∨
      e = .UntrustedPeer sender.device_code) := by
  rcases hpair : rc.check_and_store rq.nonce now with ⟨res1, cache1⟩
  cases res1 with
  | error e1 =>
    have he1 := check_and_store_error_kind rc rq.nonce now e1 (by rw [hpair])
    subst he1
    have hv : verify_session_request cm rq tp et now skew rc ts tofu =
        (.error .ReplayDetected, cache1, ts) := by
      simp [verify_session_request, hfrom, hdc, htgt, hne, hlen, hskew, hpair]
    rw [hv]
    refine ⟨rfl, fun _ => rfl, ?_, ?_, ?_⟩
    · intro v hvv
      cases hvv
    · intro e he hpost
      cases he
      cases hpost
    · intro e he
      cases he
      exact Or.inl rfl
  | ok u =>
    cases u
    cases hdec : cm.try_decode_protobuf sender.identity_pubkey with
    | none =>
      have hv : verify_session_request cm rq tp et now skew rc ts tofu =
          (.error .InvalidSenderPublicKey, cache1, ts) := by
        simp [verify_session_request, hfrom, hdc, htgt, hne, hlen, hskew, hpair, hdec]
      rw [hv]
      refine ⟨rfl, ?_, ?_, ?_, ?_⟩
      · intro hre; simp at hre
      · intro v hvv; cases hvv
      · intro e he _; cases he; rfl
      · intro e he; cases he; simp
    | some pk =>
      by_cases hsig : cm.verify pk (canonical_session_request_payload cm rq) rq.signature = false
      · have hv : verify_session_request cm rq tp et now skew rc ts tofu =
            (.error .InvalidSignature, cache1, ts) := by
          simp [verify_session_request, hfrom, hdc, htgt, hne, hlen, hskew, hpair, hdec, hsig]
        rw [hv]
        refine ⟨rfl, ?_, ?_, ?_, ?_⟩
        · intro hre; simp at hre
        · intro v hvv; cases hvv
        · intro e he _; cases he; rfl
        · intro e he; cases he; simp
      · have hsig' : cm.verify pk (canonical_session_request_payload cm rq) rq.signature = true := by
          revert hsig
          cases cm.verify pk (canonical_session_request_payload cm rq) rq.signature <;> simp
        cases hpid : cm.peer_id_from_bytes sender.peer_id with
        | none =>
          have hv : verify_session_request cm rq tp et now skew rc ts tofu =
              (.error .InvalidSenderPeerId, cache1, ts) := by
            simp [verify_session_request, hfrom, hdc, htgt, hne, hlen, hskew, hpair, hdec,
              hsig', hpid]
          rw [hv]
          refine ⟨rfl, ?_, ?_, ?_, ?_⟩
          · intro hre; simp at hre
          · intro v hvv; cases hvv
          · intro e he _; cases he; rfl
          · intro e he; cases he; simp
        | some claimed =>
          by_cases hpeq : claimed ≠ cm.peer_id_from_public_key pk
          · have hv : verify_session_request cm rq tp et now skew rc ts tofu =
                (.error .PeerIdMismatch, cache1, ts) := by
              simp [verify_session_request, hfrom, hdc, htgt, hne, hlen, hskew, hpair,
                hdec, hsig', hpid, if_pos hpeq]
            rw [hv]
            refine ⟨rfl, ?_, ?_, ?_, ?_⟩
            · intro hre; simp at hre
            · intro v hvv; cases hvv
            · intro e he _; cases he; rfl
            · intro e he; cases he; simp
          · by_cases htpm : (tp.any fun b => b != cm.peer_id_from_public_key pk) = true
            · have hv : verify_session_request cm rq tp et now skew rc ts tofu =
                  (.error .TransportPeerIdMismatch, cache1, ts) := by
                simp [verify_session_request, hfrom, hdc, htgt, hne, hlen, hskew, hpair,
                  hdec, hsig', hpid, if_neg hpeq, htpm]
              rw [hv]
              refine ⟨rfl, ?_, ?_, ?_, ?_⟩
              · intro hre; simp at hre
              · intro v hvv; cases hvv
              · intro e he _; cases he; rfl
              · intro e he; cases he; simp
            · cases het : ensure_trusted ts sender.device_code
                  (cm.peer_id_to_string (cm.peer_id_from_public_key pk))
                  sender.identity_pubkey now tofu with
              | error e2 =>
                have hv : verify_session_request cm rq tp et now skew rc ts tofu =
                    (.error e2, cache1, ts) := by
                  simp [verify_session_request, hfrom, hdc, htgt, hne, hlen, hskew, hpair,
                    hdec, hsig', hpid, if_neg hpeq, htpm, het]
                rw [hv]
                refine ⟨rfl, ?_, ?_, ?_, ?_⟩
                · intro hre; simp at hre
                · intro v hvv; cases hvv
                · intro e he _; cases he; rfl
                · intro e he
                  cases he
                  rcases ensure_trusted_error_kind _ _ _ _ _ _ e2 het with h | h <;>
                    subst h <;> simp
              | ok pr =>
                have hv : verify_session_request cm rq tp et now skew rc ts tofu =
                    (.ok ⟨cm.peer_id_from_public_key pk, sender.device_code, pr.1⟩,
                      cache1, pr.2) := by
                  simp [verify_session_request, hfrom, hdc, htgt, hne, hlen, hskew, hpair,
                    hdec, hsig', hpid, if_neg hpeq, htpm, het]
                rw [hv]
                refine ⟨rfl, ?_, ?_, ?_, ?_⟩
                · intro hre; simp at hre
                · intro v _; rfl
                · intro e he; cases he
                · intro e he; cases he

end VerifyLemmas

/-- C8.  Boundary behaviour of `verify_session_request` for a message
whose sender identity, device code, and target code pass the leading
checks: a 12-byte nonce passes the length check (no `MissingNonce` or
`NonceTooShort` error can result) while an 11-byte nonce fails with
`NonceTooShort{min_bytes: 12}`; a timestamp with `|now - unix_ms| =
skew` passes the skew check (no `TimestampSkew` error can result) while
`|now - unix_ms| = skew + 1` fails with
`TimestampSkew{unix_ms, now, skew}`. -/
theorem C8_verify_boundaries (cm : CryptoModel) (rq : SessionRequest)
    (tp : Option Nat) (et : Option String) (now skew : Int)
    (rc : NonceReplayCache) (ts : TrustStore) (tofu : Bool)
    (sender : DeviceIdentity) (hfrom : rq.from_ = some sender)
    (hdc : trim_is_empty sender.device_code = false)
    (htgt : (et.any fun x => rq.target_device_code != x) = false) :
    (rq.nonce.length = 12 →
      ∀ e, (verify_session_request cm rq tp et now skew rc ts tofu).1 = .error e →
        e ≠ .MissingNonce ∧ ∀ k, e ≠ .NonceTooShort k) ∧
    (rq.nonce.length = 11 →
      (verify_session_request cm rq tp et now skew rc ts tofu).1 =
        .error (.NonceTooShort 12)) ∧
    (rq.nonce.length = 12 → |now - rq.unix_ms| = skew →
      ∀ e, (verify_session_request cm rq tp et now skew rc ts tofu).1 = .error e →
        ∀ a b c, e ≠ .TimestampSkew a b c) ∧
    (rq.nonce.length = 12 → |now - rq.unix_ms| = skew + 1 →
      (verify_session_request cm rq tp et now skew rc ts tofu).1 =
        .error (.TimestampSkew rq.unix_ms now skew)) := by
  have hne12 : rq.nonce.length = 12 → rq.nonce.isEmpty = false := by
    intro h12
    cases hn : rq.nonce with
    | nil => rw [hn] at h12; cases h12
    | cons a l => rfl
  have hlen12 : rq.nonce.length = 12 → ¬ rq.nonce.length < MIN_NONCE_BYTES := by
    intro h12
    rw [h12]
    simp [MIN_NONCE_BYTES]
  refine ⟨?_, ?_, ?_, ?_⟩
  · intro h12 e herr
    by_cases hskew : skew < |now - rq.unix_ms|
    · have hv : (verify_session_request cm rq tp et now skew rc ts tofu).1 =
          .error (.TimestampSkew rq.unix_ms now skew) := by
        simp [verify_session_request, hfrom, hdc, htgt, hne12 h12, hlen12 h12, hskew]
      rw [hv] at herr
      cases herr
      exact ⟨by simp, by simp⟩
    · rcases (verify_past_skew cm rq tp et now skew rc ts tofu sender hfrom hdc htgt
          (hne12 h12) (hlen12 h12) hskew).2.2.2.2 e herr with
        h | h | h | h | h | h | h | h <;> subst h <;> exact ⟨by simp, by simp⟩
  · intro h11
    have hne : rq.nonce.isEmpty = false := by
      cases hn : rq.nonce with
      | nil => rw [hn] at h11; cases h11
      | cons a l => rfl
    have hlen : rq.nonce.length < MIN_NONCE_BYTES := by
      rw [h11]
      norm_num [MIN_NONCE_BYTES]
    have hv : verify_session_request cm rq tp et now skew rc ts tofu =
        (.error (.NonceTooShort MIN_NONCE_BYTES), rc, ts) := by
      simp [verify_session_request, hfrom, hdc, htgt, hne, hlen]
    rw [hv]
    rfl
  · intro h12 habs e herr
    have hskew : ¬ skew < |now - rq.unix_ms| := by rw [habs]; omega
    rcases (verify_past_skew cm rq tp et now skew rc ts tofu sender hfrom hdc htgt
        (hne12 h12) (hlen12 h12) hskew).2.2.2.2 e herr with
      h | h | h | h | h | h | h | h <;> subst h <;> simp
  · intro h12 habs
    have hskew : skew < |now - rq.unix_ms| := by rw [habs]; omega
    simp [verify_session_request, hfrom, hdc, htgt, hne12 h12, hlen12 h12, hskew]

/-- C8, witness: an 11-byte nonce is rejected with `NonceTooShort{12}`;
a 12-byte nonce with timestamp one past the allowed skew is rejected
with `TimestampSkew`. -/
theorem C8_verify_boundaries_witness :
    (verify_session_request
        ⟨fun _ => some 0, fun _ _ _ => true, fun _ => some 0, fun _ => 0,
          fun _ => "p", fun _ => []⟩
        ⟨"s", some ⟨[0], [0], "d"⟩, 0, "", [], false, 0, 0, 0,
          List.replicate 11 0, 0, [], none⟩
        none none 0 30000 (NonceReplayCache.new 60000) [] true).1 =
      .error (.NonceTooShort 12) ∧
    (verify_session_request
        ⟨fun _ => some 0, fun _ _ _ => true, fun _ => some 0, fun _ => 0,
          fun _ => "p", fun _ => []⟩
        ⟨"s", some ⟨[0], [0], "d"⟩, 0, "", [], false, 0, 0, 0,
          List.replicate 12 0, 0, [], none⟩
        none none 30001 30000 (NonceReplayCache.new 60000) [] true).1 =
      .error (.TimestampSkew 0 30001 30000) :=
  ⟨(C8_verify_boundaries _ _ none none 0 30000 (NonceReplayCache.new 60000) [] true
      ⟨[0], [0], "d"⟩ rfl (by decide) rfl).2.1 (by decide),
   (C8_verify_boundaries _ _ none none 30001 30000 (NonceReplayCache.new 60000) [] true
      ⟨[0], [0], "d"⟩ rfl (by decide) rfl).2.2.2 (by decide) (by decide)⟩

theorem check_and_store_retention (c : NonceReplayCache) (n : List Nat) (t : Int) :
    ((c.check_and_store n t).2).retention_ms = c.retention_ms := by
  unfold NonceReplayCache.check_and_store
  by_cases hc : ((c.evict_expired t).findNonce n).isSome = true
  · rw [if_pos hc]
    rfl
  · rw [if_neg hc]
    rfl

/-- C10.  When `verify_session_request` fails at a step after the replay
check (public-key decoding, signature, peer-id consistency, transport
binding, or the trust store), the nonce has already been stored in the
returned replay cache at time `now`; consequently any later message
reusing the nonce within the retention window — with its own leading
checks passing — is rejected with `ReplayDetected`.  Verification is not
atomic with respect to the replay cache on error. -/
theorem C10_nonce_stored_on_late_failure (cm : CryptoModel) (rq : SessionRequest)
    (tp : Option Nat) (et : Option String) (now skew : Int) (rc : NonceReplayCache)
    (ts : TrustStore) (tofu : Bool) (sender : DeviceIdentity) (e : SessionAuthError)
    (hfrom : rq.from_ = some sender)
    (hdc : trim_is_empty sender.device_code = false)
    (htgt : (et.any fun x => rq.target_device_code != x) = false)
    (herr : (verify_session_request cm rq tp et now skew rc ts tofu).1 = .error e)
    (hpost : is_post_replay_failure e = true) :
    ((verify_session_request cm rq tp et now skew rc ts tofu).2.1).findNonce rq.nonce =
      some now ∧
    ∀ (rq' : SessionRequest) (sender' : DeviceIdentity) (tp' : Option Nat)
      (et' : Option String) (now' skew' : Int) (ts' : TrustStore) (tofu' : Bool),
      rq'.from_ = some sender' → trim_is_empty sender'.device_code = false →
      (et'.any fun x => rq'.target_device_code != x) = false →
      rq'.nonce = rq.nonce →
      ¬ skew' < |now' - rq'.unix_ms| →
      now' - now ≤ rc.retention_ms →
      (verify_session_request cm rq' tp' et' now' skew'
          ((verify_session_request cm rq tp et now skew rc ts tofu).2.1) ts' tofu').1 =
        .error .ReplayDetected := by
  have hne : rq.nonce.isEmpty = false := by
    by_cases hc : rq.nonce.isEmpty = true
    · have hv : (verify_session_request cm rq tp et now skew rc ts tofu).1 =
          .error .MissingNonce := by
        simp [verify_session_request, hfrom, hdc, htgt, hc]
      rw [hv] at herr
      cases herr
      cases hpost
    · exact Bool.not_eq_true _ ▸ hc
  have hlen : ¬ rq.nonce.length < MIN_NONCE_BYTES := by
    intro hc
    have hv : (verify_session_request cm rq tp et now skew rc ts tofu).1 =
        .error (.NonceTooShort MIN_NONCE_BYTES) := by
      simp [verify_session_request, hfrom, hdc, htgt, hne, hc]
    rw [hv] at herr
    cases herr
    cases hpost
  have hskew : ¬ skew < |now - rq.unix_ms| := by
    intro hc
    have hv : (verify_session_request cm rq tp et now skew rc ts tofu).1 =
        .error (.TimestampSkew rq.unix_ms now skew) := by
      simp [verify_session_request, hfrom, hdc, htgt, hne, hlen, hc]
    rw [hv] at herr
    cases herr
    cases hpost
  have hpast := verify_past_skew cm rq tp et now skew rc ts tofu sender
    hfrom hdc htgt hne hlen hskew
  have hcsok : (rc.check_and_store rq.nonce now).1 = .ok () :=
    hpast.2.2.2.1 e herr hpost
  have hstored :
      ((verify_session_request cm rq tp et now skew rc ts tofu).2.1).findNonce rq.nonce =
        some now := by
    rw [hpast.1]
    exact check_and_store_ok_stores rc rq.nonce now () hcsok
  have hret : ((verify_session_request cm rq tp et now skew rc ts tofu).2.1).retention_ms =
      rc.retention_ms := by
    rw [hpast.1]
    exact check_and_store_retention rc rq.nonce now
  refine ⟨hstored, ?_⟩
  intro rq' sender' tp' et' now' skew' ts' tofu' hfrom' hdc' htgt' hnonce' hskew' hwin
  have hne' : rq'.nonce.isEmpty = false := by rw [hnonce']; exact hne
  have hlen' : ¬ rq'.nonce.length < MIN_NONCE_BYTES := by rw [hnonce']; exact hlen
  have hpast' := verify_past_skew cm rq' tp' et' now' skew'
    ((verify_session_request cm rq tp et now skew rc ts tofu).2.1) ts' tofu' sender'
    hfrom' hdc' htgt' hne' hlen' hskew'
  apply hpast'.2.1
  apply check_and_store_rejects _ _ _ now
  apply evict_preserves
  · rw [hnonce']
    exact hstored
  · rw [hret]
    exact hwin

/-- C10, witness: a request whose signature check fails (oracle rejects
the empty signature) still stores its nonce; a syntactically valid
reuse of the same nonce 5 seconds later is rejected with
`ReplayDetected`. -/
theorem C10_nonce_stored_on_late_failure_witness :
    ((verify_session_request
        ⟨fun _ => some 0, fun _ _ sig => sig == [1], fun _ => some 0, fun _ => 0,
          fun _ => "p", fun _ => []⟩
        ⟨"s", some ⟨[0], [0], "d"⟩, 0, "", [], false, 0, 0, 0,
          List.replicate 12 0, 0, [], none⟩
        none none 0 30000 (NonceReplayCache.new 60000) [] true).2.1).findNonce
      (List.replicate 12 0) = some 0 ∧
    (verify_session_request
        ⟨fun _ => some 0, fun _ _ sig => sig == [1], fun _ => some 0, fun _ => 0,
          fun _ => "p", fun _ => []⟩
        ⟨"s", some ⟨[0], [0], "d"⟩, 0, "", [], false, 0, 0, 0,
          List.replicate 12 0, 5000, [1], none⟩
        none none 5000 30000
        ((verify_session_request
            ⟨fun _ => some 0, fun _ _ sig => sig == [1], fun _ => some 0, fun _ => 0,
              fun _ => "p", fun _ => []⟩
            ⟨"s", some ⟨[0], [0], "d"⟩, 0, "", [], false, 0, 0, 0,
              List.replicate 12 0, 0, [], none⟩
            none none 0 30000 (NonceReplayCache.new 60000) [] true).2.1)
        [] true).1 = .error .ReplayDetected := by
  have h := C10_nonce_stored_on_late_failure
    ⟨fun _ => some 0, fun _ _ sig => sig == [1], fun _ => some 0, fun _ => 0,
      fun _ => "p", fun _ => []⟩
    ⟨"s", some ⟨[0], [0], "d"⟩, 0, "", [], false, 0, 0, 0,
      List.replicate 12 0, 0, [], none⟩
    none none 0 30000 (NonceReplayCache.new 60000) [] true
    ⟨[0], [0], "d"⟩ .InvalidSignature rfl (by decide) rfl rfl rfl
  exact ⟨h.1, h.2
    ⟨"s", some ⟨[0], [0], "d"⟩, 0, "", [], false, 0, 0, 0,
      List.replicate 12 0, 5000, [1], none⟩
    ⟨[0], [0], "d"⟩ none none 5000 30000 [] true rfl (by decide) rfl rfl
    (by decide) (by decide)⟩

/-- A successful verification implies all leading checks passed. -/
theorem verify_ok_early (cm : CryptoModel) (rq : SessionRequest) (tp : Option Nat)
    (et : Option String) (now skew : Int) (rc : NonceReplayCache) (ts : TrustStore)
    (tofu : Bool) (v : VerifiedSessionPeer)
    (h : (verify_session_request cm rq tp et now skew rc ts tofu).1 = .ok v) :
    ∃ sender, rq.from_ = some sender ∧ trim_is_empty sender.device_code = false ∧
      (et.any fun x => rq.target_device_code != x) = false ∧
      rq.nonce.isEmpty = false ∧ ¬ rq.nonce.length < MIN_NONCE_BYTES ∧
      ¬ skew < |now - rq.unix_ms| := by
  cases hf : rq.from_ with
  | none =>
    have hv : (verify_session_request cm rq tp et now skew rc ts tofu).1 =
        .error .MissingSenderIdentity := by
      simp [verify_session_request, hf]
    rw [hv] at h
    cases h
  | some sender =>
    refine ⟨sender, rfl, ?_⟩
    by_cases hdc : trim_is_empty sender.device_code = true
    · have hv : (verify_session_request cm rq tp et now skew rc ts tofu).1 =
          .error .MissingDeviceCode := by
        simp [verify_session_request, hf, hdc]
      rw [hv] at h
      cases h
    · have hdc' : trim_is_empty sender.device_code = false := Bool.not_eq_true _ ▸ hdc
      refine ⟨hdc', ?_⟩
      by_cases htgt : (et.any fun x => rq.target_device_code != x) = true
      · have hv : (verify_session_request cm rq tp et now skew rc ts tofu).1 =
            .error (.InvalidTargetDeviceCode (et.getD "") rq.target_device_code) := by
          simp [verify_session_request, hf, hdc', htgt]
        rw [hv] at h
        cases h
      · have htgt' : (et.any fun x => rq.target_device_code != x) = false :=
          Bool.not_eq_true _ ▸ htgt
        refine ⟨htgt', ?_⟩
        by_cases hne : rq.nonce.isEmpty = true
        · have hv : (verify_session_request cm rq tp et now skew rc ts tofu).1 =
              .error .MissingNonce := by
            simp [verify_session_request, hf, hdc', htgt', hne]
          rw [hv] at h
          cases h
        · have hne' : rq.nonce.isEmpty = false := Bool.not_eq_true _ ▸ hne
          refine ⟨hne', ?_⟩
          by_cases hlen : rq.nonce.length < MIN_NONCE_BYTES
          · have hv : (verify_session_request cm rq tp et now skew rc ts tofu).1 =
                .error (.NonceTooShort MIN_NONCE_BYTES) := by
              simp [verify_session_request, hf, hdc', htgt', hne', hlen]
            rw [hv] at h
            cases h
          · refine ⟨hlen, ?_⟩
            by_cases hskew : skew < |now - rq.unix_ms|
            · have hv : (verify_session_request cm rq tp et now skew rc ts tofu).1 =
                  .error (.TimestampSkew rq.unix_ms now skew) := by
                simp [verify_session_request, hf, hdc', htgt', hne', hlen, hskew]
              rw [hv] at h
              cases h
            · exact hskew

/-- C2, counterexample.  Two inbound requests carry the same 12-byte
nonce within retention; the first fails its signature check (so is not
accepted) but has already stored the nonce, and the second — accepted on
a fresh state, hence otherwise valid — is rejected with
`ReplayDetected`.  Zero of the two are accepted, refuting "exactly
one". -/
theorem C2_counterexample :
    (verify_session_request
        ⟨fun _ => some 0, fun _ _ sig => sig == [1], fun _ => some 0, fun _ => 0,
          fun _ => "p", fun _ => []⟩
        ⟨"s", some ⟨[0], [0], "d"⟩, 0, "", [], false, 0, 0, 0,
          List.replicate 12 0, 5000, [1], none⟩
        none none 5000 30000 (NonceReplayCache.new 60000) [] true).1 =
      .ok ⟨0, "d", true⟩ ∧
    (verify_session_request
        ⟨fun _ => some 0, fun _ _ sig => sig == [1], fun _ => some 0, fun _ => 0,
          fun _ => "p", fun _ => []⟩
        ⟨"s", some ⟨[0], [0], "d"⟩, 0, "", [], false, 0, 0, 0,
          List.replicate 12 0, 0, [], none⟩
        none none 0 30000 (NonceReplayCache.new 60000) [] true).1 =
      .error .InvalidSignature ∧
    (verify_session_request
        ⟨fun _ => some 0, fun _ _ sig => sig == [1], fun _ => some 0, fun _ => 0,
          fun _ => "p", fun _ => []⟩
        ⟨"s", some ⟨[0], [0], "d"⟩, 0, "", [], false, 0, 0, 0,
          List.replicate 12 0, 5000, [1], none⟩
        none none 5000 30000
        ((verify_session_request
            ⟨fun _ => some 0, fun _ _ sig => sig == [1], fun _ => some 0, fun _ => 0,
              fun _ => "p", fun _ => []⟩
            ⟨"s", some ⟨[0], [0], "d"⟩, 0, "", [], false, 0, 0, 0,
              List.replicate 12 0, 0, [], none⟩
            none none 0 30000 (NonceReplayCache.new 60000) [] true).2.1)
        ((verify_session_request
            ⟨fun _ => some 0, fun _ _ sig => sig == [1], fun _ => some 0, fun _ => 0,
              fun _ => "p", fun _ => []⟩
            ⟨"s", some ⟨[0], [0], "d"⟩, 0, "", [], false, 0, 0, 0,
              List.replicate 12 0, 0, [], none⟩
            none none 0 30000 (NonceReplayCache.new 60000) [] true).2.2)
        true).1 = .error .ReplayDetected :=
  ⟨rfl, rfl, rfl⟩

/-- C2, amended.  For every two inbound handshake messages carrying the
same nonce processed within the replay retention window, at most one is
accepted: once the first is accepted, the engine state it leaves behind
rejects the second. -/
theorem C2_at_most_one_accepted (cm : CryptoModel) (rq1 rq2 : SessionRequest)
    (tp1 tp2 : Option Nat) (et1 et2 : Option String) (t1 t2 skew1 skew2 : Int)
    (rc : NonceReplayCache) (ts : TrustStore) (tofu1 tofu2 : Bool)
    (v1 : VerifiedSessionPeer)
    (hnonce : rq2.nonce = rq1.nonce)
    (hwin : t2 - t1 ≤ rc.retention_ms)
    (h1 : (verify_session_request cm rq1 tp1 et1 t1 skew1 rc ts tofu1).1 = .ok v1) :
    ∀ v2, (verify_session_request cm rq2 tp2 et2 t2 skew2
        ((verify_session_request cm rq1 tp1 et1 t1 skew1 rc ts tofu1).2.1)
        ((verify_session_request cm rq1 tp1 et1 t1 skew1 rc ts tofu1).2.2) tofu2).1 ≠
      .ok v2 := by
  intro v2 h2
  obtain ⟨s1, hf1, hdc1, htgt1, hne1, hlen1, hskew1⟩ :=
    verify_ok_early cm rq1 tp1 et1 t1 skew1 rc ts tofu1 v1 h1
  have hpast1 := verify_past_skew cm rq1 tp1 et1 t1 skew1 rc ts tofu1 s1
    hf1 hdc1 htgt1 hne1 hlen1 hskew1
  have hcs1 : (rc.check_and_store rq1.nonce t1).1 = .ok () := hpast1.2.2.1 v1 h1
  have hstored :
      ((verify_session_request cm rq1 tp1 et1 t1 skew1 rc ts tofu1).2.1).findNonce
        rq1.nonce = some t1 := by
    rw [hpast1.1]
    exact check_and_store_ok_stores rc rq1.nonce t1 () hcs1
  have hret :
      ((verify_session_request cm rq1 tp1 et1 t1 skew1 rc ts tofu1).2.1).retention_ms =
        rc.retention_ms := by
    rw [hpast1.1]
    exact check_and_store_retention rc rq1.nonce t1
  obtain ⟨s2, hf2, hdc2, htgt2, hne2, hlen2, hskew2⟩ :=
    verify_ok_early cm rq2 tp2 et2 t2 skew2 _ _ tofu2 v2 h2
  have hpast2 := verify_past_skew cm rq2 tp2 et2 t2 skew2
    ((verify_session_request cm rq1 tp1 et1 t1 skew1 rc ts tofu1).2.1)
    ((verify_session_request cm rq1 tp1 et1 t1 skew1 rc ts tofu1).2.2) tofu2 s2
    hf2 hdc2 htgt2 hne2 hlen2 hskew2
  have hcs2 := hpast2.2.2.1 v2 h2
  have hrej := check_and_store_rejects
    ((verify_session_request cm rq1 tp1 et1 t1 skew1 rc ts tofu1).2.1) rq2.nonce t2 t1
    (evict_preserves _ rq2.nonce t1 t2 (by rw [hnonce]; exact hstored)
      (by rw [hret]; exact hwin))
  rw [hrej] at hcs2
  cases hcs2

/-- C2, witness for the amended claim: a first request accepted at time
0; a second request with the same nonce at time 5000 is not accepted on
the state the first left behind. -/
theorem C2_at_most_one_accepted_witness :
    (verify_session_request
        ⟨fun _ => some 0, fun _ _ sig => sig == [1], fun _ => some 0, fun _ => 0,
          fun _ => "p", fun _ => []⟩
        ⟨"s", some ⟨[0], [0], "d"⟩, 0, "", [], false, 0, 0, 0,
          List.replicate 12 0, 5000, [1], none⟩
        none none 5000 30000
        ((verify_session_request
            ⟨fun _ => some 0, fun _ _ sig => sig == [1], fun _ => some 0, fun _ => 0,
              fun _ => "p", fun _ => []⟩
            ⟨"s", some ⟨[0], [0], "d"⟩, 0, "", [], false, 0, 0, 0,
              List.replicate 12 0, 0, [1], none⟩
            none none 0 30000 (NonceReplayCache.new 60000) [] true).2.1)
        ((verify_session_request
            ⟨fun _ => some 0, fun _ _ sig => sig == [1], fun _ => some 0, fun _ => 0,
              fun _ => "p", fun _ => []⟩
            ⟨"s", some ⟨[0], [0], "d"⟩, 0, "", [], false, 0, 0, 0,
              List.replicate 12 0, 0, [1], none⟩
            none none 0 30000 (NonceReplayCache.new 60000) [] true).2.2)
        true).1 ≠ .ok ⟨0, "d", false⟩ :=
  C2_at_most_one_accepted
    ⟨fun _ => some 0, fun _ _ sig => sig == [1], fun _ => some 0, fun _ => 0,
      fun _ => "p", fun _ => []⟩
    ⟨"s", some ⟨[0], [0], "d"⟩, 0, "", [], false, 0, 0, 0,
      List.replicate 12 0, 0, [1], none⟩
    ⟨"s", some ⟨[0], [0], "d"⟩, 0, "", [], false, 0, 0, 0,
      List.replicate 12 0, 5000, [1], none⟩
    none none none none 0 5000 30000 30000 (NonceReplayCache.new 60000) [] true true
    ⟨0, "d", true⟩ rfl (by decide) rfl ⟨0, "d", false⟩

theorem alFind_active_on_accept (app : AppState) (peer : Nat) (sid : String) :
    alFind (on_accept app peer sid).active_sessions peer = some sid := by
  unfold on_accept
  cases hsm : alFind app.sessions peer with
  | none => simp [hsm, set_active_session, alFind_alInsert_self]
  | some sm => simp [hsm, set_active_session, alFind_alInsert_self]

/-- C4.  A `SessionAccept` is accepted locally (records an active
session) only if a pending outbound session for the peer existed at
receipt and the accept's `request_nonce` is nonempty and equal to one of
the pending session's retained request nonces; with no pending session
the accept is dropped with outcome `droppedNoPending` and `AuthFailed`
is driven on the peer's state machine. -/
theorem C4_accept_binding (va : VerifyAcceptFn) (app : AppState) (peer : Nat)
    (accept : SessionAccept) (now : Int) :
    ((handle_session_accept va app peer accept now).2 = .accepted →
      ∃ pending, alFind app.pending_outbound_sessions peer = some pending ∧
        accept.request_nonce ≠ [] ∧
        pending.request_nonces.contains accept.request_nonce = true ∧
        alFind (handle_session_accept va app peer accept now).1.active_sessions peer =
          some accept.session_id) ∧
    (alFind app.pending_outbound_sessions peer = none →
      (handle_session_accept va app peer accept now).2 = .droppedNoPending ∧
      (handle_session_accept va app peer accept now).1 = on_auth_failed app peer) := by
  cases hp : alFind app.pending_outbound_sessions peer with
  | none =>
    constructor
    · intro hacc
      have : (handle_session_accept va app peer accept now).2 = .droppedNoPending := by
        simp [handle_session_accept, hp]
      rw [this] at hacc
      cases hacc
    · intro _
      constructor
      · simp [handle_session_accept, hp]
      · simp [handle_session_accept, hp]
  | some pending =>
    constructor
    · intro hacc
      by_cases hre : accept.request_nonce.isEmpty = true
      · have : (handle_session_accept va app peer accept now).2 = .droppedEmptyNonce := by
          simp [handle_session_accept, hp, hre]
        rw [this] at hacc
        cases hacc
      · have hre' : accept.request_nonce.isEmpty = false := Bool.not_eq_true _ ▸ hre
        by_cases hmem : pending.request_nonces.contains accept.request_nonce = true
        · have hmemP : accept.request_nonce ∈ pending.request_nonces := by
            simpa using hmem
          rcases hva : va accept peer pending.session_id now
              app.nonce_cache app.trusted_peers app.trust_on_first_use with
            ⟨res, cache1, trusted1⟩
          cases res with
          | error e =>
            have : (handle_session_accept va app peer accept now).2 =
                .droppedVerifyFailed e := by
              simp [handle_session_accept, hp, hre', hmemP, hva]
            rw [this] at hacc
            cases hacc
          | ok v =>
            refine ⟨pending, rfl, ?_, hmem, ?_⟩
            · intro hh
              rw [hh] at hre'
              cases hre'
            · have happ : (handle_session_accept va app peer accept now).1 =
                  on_accept
                    { app with
                        pending_outbound_sessions :=
                          alRemove app.pending_outbound_sessions peer
                        nonce_cache := cache1
                        trusted_peers := trusted1 } peer accept.session_id := by
                simp [handle_session_accept, hp, hre', hmemP, hva]
              rw [happ]
              exact alFind_active_on_accept _ peer accept.session_id
        · have hmemN : accept.request_nonce ∉ pending.request_nonces := by
            intro hh
            exact hmem (by simpa using hh)
          have : (handle_session_accept va app peer accept now).2 =
              .droppedNonceMismatch := by
            simp [handle_session_accept, hp, hre', hmemN]
          rw [this] at hacc
          cases hacc
    · intro hnone
      cases hnone

/-- C4, witness: with one pending session retaining nonce `[7]`, an
accept binding `request_nonce = [7]` is accepted and records the active
session; on an app with no pending session the same accept is dropped
and `AuthFailed` drives the (empty) machine table. -/
theorem C4_accept_binding_witness :
    alFind (handle_session_accept
        (fun _ _ _ _ rc ts _ => (.ok ⟨0, "d", false⟩, rc, ts))
        ⟨[], [(1, ⟨"sid", [[7]], 0, 1⟩)], [], [], NonceReplayCache.new 60000, [], true⟩
        1 ⟨"sid", 0, 0, 0, 0, false, [9], 0, [], [7]⟩ 0).1.active_sessions 1 =
      some "sid" ∧
    (handle_session_accept
        (fun _ _ _ _ rc ts _ => (.ok ⟨0, "d", false⟩, rc, ts))
        ⟨[], [], [], [], NonceReplayCache.new 60000, [], true⟩
        1 ⟨"sid", 0, 0, 0, 0, false, [9], 0, [], [7]⟩ 0).2 = .droppedNoPending := by
  constructor
  · obtain ⟨p, hp, hne, hmem, hact⟩ :=
      (C4_accept_binding (fun _ _ _ _ rc ts _ => (.ok ⟨0, "d", false⟩, rc, ts))
        ⟨[], [(1, ⟨"sid", [[7]], 0, 1⟩)], [], [], NonceReplayCache.new 60000, [], true⟩
        1 ⟨"sid", 0, 0, 0, 0, false, [9], 0, [], [7]⟩ 0).1 rfl
    exact hact
  · exact ((C4_accept_binding (fun _ _ _ _ rc ts _ => (.ok ⟨0, "d", false⟩, rc, ts))
      ⟨[], [], [], [], NonceReplayCache.new 60000, [], true⟩
      1 ⟨"sid", 0, 0, 0, 0, false, [9], 0, [], [7]⟩ 0).2 rfl).1

/-- C1, counterexample.  A machine that has just entered `Reconnecting`
with reconnect budget remaining (elapsed 200 ms of a 15 s budget)
rejects `RetryBudgetExhausted` with `InvalidTransition` instead of
transitioning to `Failed(RetryBudgetExhausted)`: the or-pattern guard
`!has_reconnect_budget` in the source covers the `RetryBudgetExhausted`
alternative as well. -/
theorem C1_counterexample :
    (ConnectionStateMachine.has_reconnect_budget
      ⟨.Reconnecting, TimingProfile.default, 200, 1⟩ = true) ∧
    (ConnectionStateMachine.apply
        ⟨.Reconnecting, TimingProfile.default, 200, 1⟩ .RetryBudgetExhausted).1 =
      .error (.InvalidTransition .Reconnecting .RetryBudgetExhausted) ∧
    (ConnectionStateMachine.apply
        ⟨.Reconnecting, TimingProfile.default, 200, 1⟩ .RetryBudgetExhausted).1 ≠
      .ok ⟨.Reconnecting, .Failed .RetryBudgetExhausted, none⟩ := by
  refine ⟨rfl, rfl, fun h => Except.noConfusion h⟩

/-- C1, amended.  In state `Reconnecting`, the trigger
`RetryBudgetExhausted` yields the transition to
`Failed(RetryBudgetExhausted)` exactly when the reconnect budget is
exhausted; while budget remains it fails with `InvalidTransition` and
the machine is unchanged. -/
theorem C1_amended (m : ConnectionStateMachine) (h : m.state = .Reconnecting) :
    (m.has_reconnect_budget = false →
      m.apply .RetryBudgetExhausted =
        (.ok ⟨.Reconnecting, .Failed .RetryBudgetExhausted, none⟩,
          { m with state := .Failed .RetryBudgetExhausted })) ∧
    (m.has_reconnect_budget = true →
      m.apply .RetryBudgetExhausted =
        (.error (.InvalidTransition .Reconnecting .RetryBudgetExhausted), m)) := by
  obtain ⟨s, tp, el, att⟩ := m
  simp only at h
  subst h
  constructor <;> intro hb <;>
    simp [ConnectionStateMachine.apply, ConnectionStateMachine.step, hb]

/-- C1, witness for the amended claim at a concrete machine. -/
theorem C1_amended_witness :
    ConnectionStateMachine.apply
        ⟨.Reconnecting, TimingProfile.default, 20000, 3⟩ .RetryBudgetExhausted =
      (.ok ⟨.Reconnecting, .Failed .RetryBudgetExhausted, none⟩,
        ⟨.Failed .RetryBudgetExhausted, TimingProfile.default, 20000, 3⟩) :=
  (C1_amended ⟨.Reconnecting, TimingProfile.default, 20000, 3⟩ rfl).1 rfl

/-- C6, counterexample.  With backoff start 1 ms, backoff ceiling `2^62`
ms and 32 attempts recorded, `PathLost` from `Active` arms a backoff of
`2^31` ms (the source caps the shift exponent at 31), not the
`min(start << attempts, max) = 2^32` the claim's formula gives. -/
theorem C6_counterexample :
    (ConnectionStateMachine.apply
        ⟨.Active, ⟨2500, 1500, 2200, 2500, 1200, 1000, 3, 2 ^ 63, 1, 2 ^ 62⟩, 0, 32⟩
        .PathLost).1 =
      .ok ⟨.Active, .Reconnecting, some (.ReconnectBackoff, 2 ^ 31)⟩ ∧
    (2 ^ 31 : Nat) ≠ min (1 <<< 32) (2 ^ 62) := by
  refine ⟨rfl, ?_⟩
  decide

/-- C6, amended.  `PathLost` from `Active` arms
`ReconnectBackoff(backoff)` with
`backoff = min(start * 2^(min attempts 31), max)` under saturating `u64`
multiplication, then increments `reconnect_attempts` (saturating `u32`)
and adds `backoff` to `reconnect_elapsed_ms` (saturating `u64`);
`has_reconnect_budget` holds iff `reconnect_elapsed_ms <
reconnect_budget_ms`; and `HandshakeOk` in `SecureHandshake` resets both
counters to zero. -/
theorem C6_amended (m m2 : ConnectionStateMachine) (hA : m.state = .Active)
    (hS : m2.state = .SecureHandshake) :
    m.apply .PathLost =
      (.ok ⟨.Active, .Reconnecting, some (.ReconnectBackoff, m.next_backoff_ms)⟩,
        { m with
            state := .Reconnecting
            reconnect_attempts := satAdd32 m.reconnect_attempts 1
            reconnect_elapsed_ms := satAdd64 m.reconnect_elapsed_ms m.next_backoff_ms }) ∧
    m.next_backoff_ms =
      min (satMul64 m.timing.reconnect_backoff_start_ms (2 ^ min m.reconnect_attempts 31))
        m.timing.reconnect_backoff_max_ms ∧
    (m.has_reconnect_budget = true ↔
      m.reconnect_elapsed_ms < m.timing.reconnect_budget_ms) ∧
    m2.apply .HandshakeOk =
      (.ok ⟨.SecureHandshake, .Active, none⟩,
        { m2 with state := .Active, reconnect_attempts := 0, reconnect_elapsed_ms := 0 }) := by
  obtain ⟨s, tp, el, att⟩ := m
  obtain ⟨s2, tp2, el2, att2⟩ := m2
  simp only at hA hS
  subst hA; subst hS
  refine ⟨rfl, rfl, ?_, rfl⟩
  simp [ConnectionStateMachine.has_reconnect_budget]

/-- C6, witness: the amended claim evaluated on a fresh machine in
`Active` (backoff 200 ms armed, counters charged to 1 attempt / 200 ms)
and on a machine in `SecureHandshake` with stale counters (reset to
zero). -/
theorem C6_amended_witness :
    ConnectionStateMachine.apply ⟨.Active, TimingProfile.default, 0, 0⟩ .PathLost =
      (.ok ⟨.Active, .Reconnecting, some (.ReconnectBackoff, 200)⟩,
        ⟨.Reconnecting, TimingProfile.default, 200, 1⟩) ∧
    ConnectionStateMachine.apply ⟨.SecureHandshake, TimingProfile.default, 500, 2⟩
        .HandshakeOk =
      (.ok ⟨.SecureHandshake, .Active, none⟩,
        ⟨.Active, TimingProfile.default, 0, 0⟩) :=
  ⟨(C6_amended ⟨.Active, TimingProfile.default, 0, 0⟩
      ⟨.SecureHandshake, TimingProfile.default, 500, 2⟩ rfl rfl).1,
   (C6_amended ⟨.Active, TimingProfile.default, 0, 0⟩
      ⟨.SecureHandshake, TimingProfile.default, 500, 2⟩ rfl rfl).2.2.2⟩

/-- C5.  Every `apply` either succeeds with exactly the transition the
section 4.5 table prescribes for the machine's state and the trigger
(with the conditional `Reconnecting x RetryBudgetAvailable` cell
resolved by the current budget and the `ReconnectBackoff` duration given
by the machine's computed backoff), or fails with
`InvalidTransition{from, trigger}` leaving the machine unchanged. -/
theorem C5_table_correspondence (m : ConnectionStateMachine) (t : Trigger) :
    (∀ tr, (m.apply t).1 = .ok tr →
      tr.src = m.state ∧
      specTableCell m.timing m.has_reconnect_budget m.next_backoff_ms m.state t =
        some (tr.dst, tr.arm_timer)) ∧
    (∀ e, (m.apply t).1 = .error e →
      e = .InvalidTransition m.state t ∧ (m.apply t).2 = m) := by
  obtain ⟨s, tp, el, att⟩ := m
  cases s <;> cases t <;>
    simp [ConnectionStateMachine.apply, ConnectionStateMachine.step, specTableCell] <;>
    split <;> simp_all

/-- C5, witness: the correspondence evaluated at `Idle x StartConnect`
(a populated cell) and at `Idle x HandshakeOk` (a blank cell, state
unchanged). -/
theorem C5_witness :
    specTableCell TimingProfile.default true 200 .Idle .StartConnect =
      some (.Discovering, some (.Discovery, 2500)) ∧
    (ConnectionStateMachine.apply ConnectionStateMachine.default .HandshakeOk).2 =
      ConnectionStateMachine.default :=
  ⟨((C5_table_correspondence ConnectionStateMachine.default .StartConnect).1
      ⟨.Idle, .Discovering, some (.Discovery, 2500)⟩ rfl).2,
   ((C5_table_correspondence ConnectionStateMachine.default .HandshakeOk).2
      (.InvalidTransition .Idle .HandshakeOk) rfl).2⟩

section KeepaliveLemmas

theorem collect_go_cons_not_connected (interval_ms timeout_ms : Int) (max_misses : Nat)
    (now : Int) (connected : List Nat) (ck : List (Nat × ControlKeepaliveState))
    (peer : Nat) (sid : String) (rest : List (Nat × String))
    (h : connected.contains peer = false) :
    collect_keepalive_go interval_ms timeout_ms max_misses now connected ck
        ((peer, sid) :: rest) =
      collect_keepalive_go interval_ms timeout_ms max_misses now connected ck rest := by
  have hc : peer ∉ connected := by simpa using h
  simp [collect_keepalive_go, hc]

theorem collect_go_cons_connected (interval_ms timeout_ms : Int) (max_misses : Nat)
    (now : Int) (connected : List Nat) (ck : List (Nat × ControlKeepaliveState))
    (peer : Nat) (sid : String) (rest : List (Nat × String))
    (h : connected.contains peer = true) :
    collect_keepalive_go interval_ms timeout_ms max_misses now connected ck
        ((peer, sid) :: rest) =
      ((match (keepalive_spec_step interval_ms timeout_ms max_misses now
            ((alFind ck peer).getD ControlKeepaliveState.default)).2.2 with
        | some seq =>
          (peer, sid, seq) ::
            (collect_keepalive_go interval_ms timeout_ms max_misses now connected
              (alInsert ck peer (keepalive_spec_step interval_ms timeout_ms max_misses now
                ((alFind ck peer).getD ControlKeepaliveState.default)).1) rest).1
        | none =>
          (collect_keepalive_go interval_ms timeout_ms max_misses now connected
            (alInsert ck peer (keepalive_spec_step interval_ms timeout_ms max_misses now
              ((alFind ck peer).getD ControlKeepaliveState.default)).1) rest).1),
       (if (keepalive_spec_step interval_ms timeout_ms max_misses now
            ((alFind ck peer).getD ControlKeepaliveState.default)).2.1 then
          peer ::
            (collect_keepalive_go interval_ms timeout_ms max_misses now connected
              (alInsert ck peer (keepalive_spec_step interval_ms timeout_ms max_misses now
                ((alFind ck peer).getD ControlKeepaliveState.default)).1) rest).2.1
        else
          (collect_keepalive_go interval_ms timeout_ms max_misses now connected
            (alInsert ck peer (keepalive_spec_step interval_ms timeout_ms max_misses now
              ((alFind ck peer).getD ControlKeepaliveState.default)).1) rest).2.1),
       (collect_keepalive_go interval_ms timeout_ms max_misses now connected
         (alInsert ck peer (keepalive_spec_step interval_ms timeout_ms max_misses now
           ((alFind ck peer).getD ControlKeepaliveState.default)).1) rest).2.2) := by
  have hc : peer ∈ connected := by simpa using h
  cases haw : ((alFind ck peer).getD ControlKeepaliveState.default).awaiting_since_unix_ms with
  | none =>
    by_cases hint : satSubI64 now
        ((alFind ck peer).getD ControlKeepaliveState.default).last_send_unix_ms < interval_ms <;>
      simp [collect_keepalive_go, hc, keepalive_spec_step, haw, hint]
  | some since =>
    by_cases hto : timeout_ms ≤ satSubI64 now since
    · by_cases hint : satSubI64 now
          ((alFind ck peer).getD ControlKeepaliveState.default).last_send_unix_ms < interval_ms <;>
        simp [collect_keepalive_go, hc, keepalive_spec_step, haw, hto, hint]
    · simp [collect_keepalive_go, hc, keepalive_spec_step, haw, hto]

theorem collect_go_not_mem (interval_ms timeout_ms : Int) (max_misses : Nat)
    (now : Int) (connected : List Nat) (l : List (Nat × String)) (peer : Nat)
    (hnot : ∀ q ∈ l, q.1 ≠ peer) :
    ∀ ck,
      alFind (collect_keepalive_go interval_ms timeout_ms max_misses now
        connected ck l).2.2 peer = alFind ck peer ∧
      (∀ sid seq, (peer, sid, seq) ∉
        (collect_keepalive_go interval_ms timeout_ms max_misses now
          connected ck l).1) ∧
      peer ∉ (collect_keepalive_go interval_ms timeout_ms max_misses now
        connected ck l).2.1 := by
  induction l with
  | nil =>
    intro ck
    refine ⟨rfl, ?_, ?_⟩
    · intro sid seq hh
      simp [collect_keepalive_go] at hh
    · intro hh
      simp [collect_keepalive_go] at hh
  | cons q rest ih =>
    intro ck
    obtain ⟨k, s⟩ := q
    have hk : k ≠ peer := hnot (k, s) (List.mem_cons_self _ _)
    have hrest : ∀ q ∈ rest, q.1 ≠ peer := fun q hq => hnot q (List.mem_cons_of_mem _ hq)
    cases hc : connected.contains k with
    | false =>
      rw [collect_go_cons_not_connected _ _ _ _ _ _ _ _ _ hc]
      exact ih hrest ck
    | true =>
      rw [collect_go_cons_connected _ _ _ _ _ _ _ _ _ hc]
      have hrec := ih hrest (alInsert ck k
        (keepalive_spec_step interval_ms timeout_ms max_misses now
          ((alFind ck k).getD ControlKeepaliveState.default)).1)
      refine ⟨?_, ?_, ?_⟩
      · rw [hrec.1]
        exact alFind_alInsert_ne _ _ _ _ (Ne.symm hk)
      · intro sid seq hh
        cases hsend : (keepalive_spec_step interval_ms timeout_ms max_misses now
            ((alFind ck k).getD ControlKeepaliveState.default)).2.2 with
        | none =>
          rw [hsend] at hh
          exact hrec.2.1 sid seq hh
        | some q0 =>
          rw [hsend] at hh
          rcases List.mem_cons.mp hh with heq | hh'
          · have hpk : peer = k := congrArg Prod.fst heq
            exact hk hpk.symm
          · exact hrec.2.1 sid seq hh'
      · intro hh
        by_cases hlost : (keepalive_spec_step interval_ms timeout_ms max_misses now
            ((alFind ck k).getD ControlKeepaliveState.default)).2.1 = true
        · rw [if_pos hlost] at hh
          rcases List.mem_cons.mp hh with heq | hh'
          · exact hk heq.symm
          · exact hrec.2.2 hh'
        · rw [if_neg hlost] at hh
          exact hrec.2.2 hh

end KeepaliveLemmas

/-- C9, counterexample.  A tick at `now = 1200` for an active, connected
session whose ping (seq 7, sent and awaited since time 0) has just timed
out (timeout 1200 ms, interval 1000 ms, 3 misses allowed): the engine
both records the miss (`consecutive_misses` becomes 1, awaiting
cleared) *and* sends a new ping (seq 8) in the same tick, because the
timeout branch falls through to the send check — the two branches are
not mutually exclusive. -/
theorem C9_counterexample :
    collect_keepalive_actions 1000 1200 3 1200 [1]
        [(1, ⟨7, 0, some 7, some 0, 0⟩)] [(1, "s")] =
      ([(1, "s", 8)], [], [(1, ⟨8, 1200, some 8, some 1200, 1⟩)]) := by
  decide

/-- C9, amended.  On each keepalive tick, for every active session whose
transport is still connected (with distinct peers in the active table),
the engine updates that peer's keepalive entry exactly as
`keepalive_spec_step` prescribes: if a ping is awaited and timed out it
clears awaiting, increments `consecutive_misses` and queues a disconnect
at the threshold, then still falls through to the send check in the same
tick; the send check is skipped only while a ping is awaited and not yet
timed out; when `now - last_send >= interval` it increments `next_seq`,
sends `Ping(session_id, next_seq, now)` and arms awaiting — so one tick
can both record a miss and send a new ping. -/
theorem C9_keepalive_tick (interval_ms timeout_ms : Int) (max_misses : Nat)
    (now : Int) (connected : List Nat) (ck : List (Nat × ControlKeepaliveState))
    (active : List (Nat × String)) (peer : Nat) (sid : String)
    (hnodup : (active.map Prod.fst).Nodup)
    (hmem : (peer, sid) ∈ active)
    (hconn : connected.contains peer = true) :
    alFind (collect_keepalive_actions interval_ms timeout_ms max_misses now connected ck
        active).2.2 peer =
      some (keepalive_spec_step interval_ms timeout_ms max_misses now
        ((alFind ck peer).getD ControlKeepaliveState.default)).1 ∧
    (peer ∈ (collect_keepalive_actions interval_ms timeout_ms max_misses now connected ck
        active).2.1 ↔
      (keepalive_spec_step interval_ms timeout_ms max_misses now
        ((alFind ck peer).getD ControlKeepaliveState.default)).2.1 = true) ∧
    (∀ seq, (peer, sid, seq) ∈ (collect_keepalive_actions interval_ms timeout_ms
        max_misses now connected ck active).1 ↔
      (keepalive_spec_step interval_ms timeout_ms max_misses now
        ((alFind ck peer).getD ControlKeepaliveState.default)).2.2 = some seq) := by
  unfold collect_keepalive_actions
  induction active generalizing ck with
  | nil => cases hmem
  | cons q rest ih =>
    obtain ⟨k, s⟩ := q
    rcases List.mem_cons.mp hmem with heq | hmemr
    · injection heq with h1 h2
      subst h1
      subst h2
      have hpnot : peer ∉ rest.map Prod.fst := (List.nodup_cons.mp hnodup).1
      have hkeys : ∀ q ∈ rest, q.1 ≠ peer := by
        intro q hq hqp
        exact hpnot (hqp ▸ List.mem_map_of_mem Prod.fst hq)
      rw [collect_go_cons_connected _ _ _ _ _ _ _ _ _ hconn]
      have hrec := collect_go_not_mem interval_ms timeout_ms max_misses now connected
        rest peer hkeys
        (alInsert ck peer (keepalive_spec_step interval_ms timeout_ms max_misses now
          ((alFind ck peer).getD ControlKeepaliveState.default)).1)
      refine ⟨?_, ?_, ?_⟩
      · rw [hrec.1]
        exact alFind_alInsert_self _ _ _
      · by_cases hlost : (keepalive_spec_step interval_ms timeout_ms max_misses now
            ((alFind ck peer).getD ControlKeepaliveState.default)).2.1 = true
        · rw [if_pos hlost]
          exact ⟨fun _ => hlost, fun _ => List.mem_cons_self _ _⟩
        · rw [if_neg hlost]
          exact ⟨fun hh => absurd hh hrec.2.2, fun hq => absurd hq hlost⟩
      · intro seq
        cases hsend : (keepalive_spec_step interval_ms timeout_ms max_misses now
            ((alFind ck peer).getD ControlKeepaliveState.default)).2.2 with
        | none =>
          constructor
          · intro hh
            exact absurd hh (hrec.2.1 sid seq)
          · intro hq
            cases hq
        | some q0 =>
          constructor
          · intro hh
            rcases List.mem_cons.mp hh with heq2 | hh'
            · injection heq2 with _ h3
              injection h3 with _ h4
              rw [h4]
            · exact absurd hh' (hrec.2.1 sid seq)
          · intro hq
            injection hq with h5
            rw [← h5]
            exact List.mem_cons_self _ _
    · have hk : k ≠ peer := by
        intro hkp
        subst hkp
        exact (List.nodup_cons.mp hnodup).1 (List.mem_map.mpr ⟨(k, sid), hmemr, rfl⟩)
      have hnodup' : (rest.map Prod.fst).Nodup := (List.nodup_cons.mp hnodup).2
      cases hck : connected.contains k with
      | false =>
        rw [collect_go_cons_not_connected _ _ _ _ _ _ _ _ _ hck]
        exact ih ck hnodup' hmemr
      | true =>
        rw [collect_go_cons_connected _ _ _ _ _ _ _ _ _ hck]
        have hfind2 : alFind (alInsert ck k
            (keepalive_spec_step interval_ms timeout_ms max_misses now
              ((alFind ck k).getD ControlKeepaliveState.default)).1) peer =
            alFind ck peer := alFind_alInsert_ne _ _ _ _ (Ne.symm hk)
        have hih := ih (alInsert ck k
          (keepalive_spec_step interval_ms timeout_ms max_misses now
            ((alFind ck k).getD ControlKeepaliveState.default)).1) hnodup' hmemr
        rw [hfind2] at hih
        refine ⟨hih.1, ?_, ?_⟩
        · by_cases hlost : (keepalive_spec_step interval_ms timeout_ms max_misses now
              ((alFind ck k).getD ControlKeepaliveState.default)).2.1 = true
          · rw [if_pos hlost]
            constructor
            · intro hh
              rcases List.mem_cons.mp hh with heq2 | hh'
              · exact absurd heq2.symm hk
              · exact hih.2.1.mp hh'
            · intro hq
              exact List.mem_cons_of_mem _ (hih.2.1.mpr hq)
          · rw [if_neg hlost]
            exact hih.2.1
        · intro seq
          cases hsend : (keepalive_spec_step interval_ms timeout_ms max_misses now
              ((alFind ck k).getD ControlKeepaliveState.default)).2.2 with
          | none => exact hih.2.2 seq
          | some q0 =>
            constructor
            · intro hh
              rcases List.mem_cons.mp hh with heq2 | hh'
              · have : peer = k := congrArg Prod.fst heq2
                exact absurd this.symm hk
              · exact (hih.2.2 seq).mp hh'
            · intro hq
              exact List.mem_cons_of_mem _ ((hih.2.2 seq).mpr hq)

/-- C9, witness: the amended per-tick behaviour evaluated on a two-peer
active table where peer 1's awaited ping has timed out (miss recorded
and a fresh ping sent in the same tick) and on peer 2 with no ping
awaited and the interval not yet elapsed (nothing sent). -/
theorem C9_keepalive_tick_witness :
    alFind (collect_keepalive_actions 1000 1200 3 1200 [1, 2]
        [(1, ⟨7, 0, some 7, some 0, 0⟩), (2, ⟨4, 900, none, none, 0⟩)]
        [(1, "s"), (2, "t")]).2.2 1 =
      some ⟨8, 1200, some 8, some 1200, 1⟩ ∧
    ((1, "s", (8 : Nat)) ∈ (collect_keepalive_actions 1000 1200 3 1200 [1, 2]
        [(1, ⟨7, 0, some 7, some 0, 0⟩), (2, ⟨4, 900, none, none, 0⟩)]
        [(1, "s"), (2, "t")]).1 ↔
      (keepalive_spec_step 1000 1200 3 1200
        ((alFind [(1, ⟨7, 0, some 7, some 0, 0⟩), (2, ⟨4, 900, none, none, 0⟩)] 1).getD
          ControlKeepaliveState.default)).2.2 = some 8) ∧
    alFind (collect_keepalive_actions 1000 1200 3 1200 [1, 2]
        [(1, ⟨7, 0, some 7, some 0, 0⟩), (2, ⟨4, 900, none, none, 0⟩)]
        [(1, "s"), (2, "t")]).2.2 2 =
      some ⟨4, 900, none, none, 0⟩ :=
  ⟨(C9_keepalive_tick 1000 1200 3 1200 [1, 2]
      [(1, ⟨7, 0, some 7, some 0, 0⟩), (2, ⟨4, 900, none, none, 0⟩)]
      [(1, "s"), (2, "t")] 1 "s" (by decide) (by decide) (by decide)).1,
   (C9_keepalive_tick 1000 1200 3 1200 [1, 2]
      [(1, ⟨7, 0, some 7, some 0, 0⟩), (2, ⟨4, 900, none, none, 0⟩)]
      [(1, "s"), (2, "t")] 1 "s" (by decide) (by decide) (by decide)).2.2 8,
   (C9_keepalive_tick 1000 1200 3 1200 [1, 2]
      [(1, ⟨7, 0, some 7, some 0, 0⟩), (2, ⟨4, 900, none, none, 0⟩)]
      [(1, "s"), (2, "t")] 2 "t" (by decide) (by decide) (by decide)).1⟩

end Aether
